import Mathlib

/-!
Verification of the activity-to-operation reconciliation logic of the
winehaus-veritas data-migration scripts.

The development shallowly embeds the two scripts that implement the
reconciliation walk:

* `ImportScript`  — `scripts/import-case-data.js` (class `LegacyCaseDataSeeder`),
* `MigrateScript` — `scripts/migrate-specific-activity.js`
  (class `SpecificActivityMigrator`).

Modelling conventions, used uniformly below:

* UUIDs minted by `uuidv4()` are modelled by a monotone counter `nextId`
  carried in `DbState`; every `INSERT` consumes one fresh id.
* Database tables touched by the reconciliation (wines, cases_operations,
  wine_inventory_entries, operations_groups) are lists of rows in `DbState`;
  `INSERT` appends, `SELECT ... WHERE` is `List.find?` / `List.filter`,
  `UPDATE ... WHERE id = $x` maps over the rows.
* The per-run memoization `Map`s (`wineMapId` etc.) are assoc lists; `Map.set`
  prepends so that lookups see the newest binding, matching JS `Map` lookup.
  The bottle-format / bottle-vintage caches only ever memoize values of the
  static `wine_bottle_formats` / `wine_bottle_vintages` tables, which the
  reconciliation never writes, so those two resolvers are modelled as the
  pure lookup functions `formatMap` / `vintageMap` in `MigrationEnv`.
  The wine cache and table must stay stateful (wines are auto-created) and
  live in `DbState`.
* Legacy numeric identifiers are `Nat`.  Nullable / optional JS fields are
  `Option Nat`; a JS falsy value (`null`, `undefined`, and the id `0`, which
  never occurs for real legacy keys) is `none`.  Timestamps, tenant ids and
  the `synced_inventory` / `reverted_on_inventory` constants play no role in
  any of the properties below and are omitted from the row models.
* JS exceptions that escape a function (e.g. destructuring `undefined`)
  are modelled with `Except Unit`; exceptions swallowed by a local
  `try/catch` stay inside the returning function.
-/

/-- One legacy activity row (`cases-activities.json`): a customer transaction
event.  `transactionType` is the single-character legacy code (`"D"`, `"W"`,
`"T"`, ...), `status` the small integer legacy status code. -/
structure LegacyActivity where
  activityId : Nat
  accountId : Nat
  transactionType : String
  status : Int
  deriving DecidableEq, Repr

/-- One legacy activity line item (`cases-activityDetails.json`).
`activityType` is the line kind (`"Bottle"`, `"Case"`, `"Supply"`, ...);
`wineItemId`, `bottleSizeId`, `vintageId` are the optionally-present direct
wine identifiers, backfilled from `caseDetailId` when absent. -/
structure ActivityDetail where
  activityDetailId : Nat
  activityId : Nat
  activityType : String
  caseId : Nat
  caseDetailId : Nat
  wineItemId : Option Nat
  bottleSizeId : Option Nat
  vintageId : Option Nat
  quantity : Int
  deriving DecidableEq, Repr

/-- One legacy case-detail row (`cases-caseDetails.json`), referenced by
activity lines for wine/format/vintage backfill and used by the snapshot
seeding.  `legacyCaseId = 0` models a falsy (`null`) legacy case id. -/
structure CaseDetail where
  legacyCaseDetailId : Nat
  legacyCaseId : Nat
  legacyWineItemId : Option Nat
  legacyBottleSizeId : Option Nat
  legacyVintageId : Option Nat
  wineQuantity : Option Int
  deriving DecidableEq, Repr

/-- A row of the target `wines` table (id, stored legacy id, description). -/
structure WineRow where
  id : Nat
  legacyId : Nat
  description : String
  deriving DecidableEq, Repr

/-- A row of the target `cases_operations` table.  `opType` is the
`case_operation` kind string, `logs` the JSON text stored in the `logs`
column, `groupId` the owning operation group. -/
structure CaseOperationRow where
  id : Nat
  caseId : Nat
  opType : Option String
  status : Option String
  logs : String
  groupId : Nat
  deriving DecidableEq, Repr

/-- A row of the target `operations_groups` table. -/
structure OperationGroupRow where
  id : Nat
  customerId : Nat
  status : Option String
  deriving DecidableEq, Repr

/-- A row of the target `wine_inventory_entries` table as written by the
operation reconciliation (`operation_id` always set, `case_id` never set). -/
structure InventoryEntryRow where
  id : Nat
  operationId : Option Nat
  wineId : Nat
  bottleFormatId : Nat
  bottleVintageId : Nat
  amount : Int
  caseId : Option Nat
  deriving DecidableEq, Repr

/-- The mutable target-store state threaded through the reconciliation:
the uuid counter, the wines table with its per-run memoization cache, and
the operation / group / ledger tables. -/
structure DbState where
  nextId : Nat
  wines : List WineRow
  wineCache : List (Nat × Nat)
  groups : List OperationGroupRow
  operations : List CaseOperationRow
  entries : List InventoryEntryRow
  deriving DecidableEq, Repr

/-- The read-only legacy data and static target lookup tables for one run:
`caseIdMap` is the `caseIdMap` legacy-case-id → new-case-id map, `formatMap`
and `vintageMap` the (cache-backed, static) bottle format / vintage
resolvers, `caseDetails` the legacy case-detail records and
`activityDetails` the legacy activity line items. -/
structure MigrationEnv where
  caseIdMap : Nat → Option Nat
  formatMap : Nat → Option Nat
  vintageMap : Nat → Option Nat
  caseDetails : List CaseDetail
  activityDetails : List ActivityDetail

/-! ### String containment

`findExistingOperationGroup` detects an already-migrated activity with a SQL
`LIKE '%pat%'` over the JSON `logs` text, i.e. substring containment.  We
implement containment on character lists so the theorems can evaluate it. -/

/-- `isSubAt pat l`: `pat` is a prefix of `l`. -/
def isSubAt : List Char → List Char → Bool
  | [], _ => true
  | _ :: _, [] => false
  | a :: as, b :: bs => a = b && isSubAt as bs

/-- `hasSub pat l`: `pat` occurs contiguously inside `l`. -/
def hasSub (pat : List Char) : List Char → Bool
  | [] => isSubAt pat []
  | l@(_ :: t) => isSubAt pat l || hasSub pat t

/-- String-level containment: does `pat` occur inside `s`?  This is the
semantics of SQL `s LIKE '%pat%'` for a pattern with no wildcards. -/
def strContains (s pat : String) : Bool :=
  hasSub pat.toList s.toList


/-! ### Shared stateful primitives

`getNewWineId` and `createCaseOperationInventoryEntry` have identical bodies
in both scripts and are defined once here. -/

/-- `getNewWineId(legacyWineId)` (identical in both scripts): resolve a legacy
wine id via the per-run `wineMapId` cache, falling back to a
`SELECT id FROM wines WHERE legacy_id = $1` lookup (memoizing a hit);
`none` when no wine with that legacy id exists. -/
def getNewWineId (s : DbState) (legacyWineId : Nat) : Option Nat × DbState :=
  match s.wineCache.find? (fun p => p.1 == legacyWineId) with
  | some p => (some p.2, s)
  | none =>
    match s.wines.find? (fun w => w.legacyId == legacyWineId) with
    | none => (none, s)
    | some w =>
      (some w.id, { s with wineCache := (legacyWineId, w.id) :: s.wineCache })

/-- `createCaseOperationInventoryEntry(caseOperationId, wineId, bottleFormatId,
bottleVintageId, amount)` (identical in both scripts): look up an existing
`wine_inventory_entries` row by the four-part key; if found, `UPDATE` its
amount to the sum; otherwise `INSERT` a fresh row carrying exactly `amount`. -/
def createCaseOperationInventoryEntry (s : DbState) (caseOperationId wineId bottleFormatId bottleVintageId : Nat) (amount : Int) : DbState :=
  match s.entries.find? (fun e =>
      e.operationId == some caseOperationId && e.wineId == wineId &&
      e.bottleFormatId == bottleFormatId && e.bottleVintageId == bottleVintageId) with
  | some existing =>
    { s with entries := s.entries.map (fun e =>
        if e.id == existing.id then { e with amount := e.amount + amount } else e) }
  | none =>
    { s with
      entries := s.entries ++
        [⟨s.nextId, some caseOperationId, wineId, bottleFormatId, bottleVintageId, amount, none⟩],
      nextId := s.nextId + 1 }

/-! ### Observations over a `DbState` -/

/-- The `cases_operations` rows belonging to one operation group. -/
def opsOfGroup (g : Nat) (s : DbState) : List CaseOperationRow :=
  s.operations.filter (fun op => op.groupId == g)

/-- Does ledger entry `e` belong (via its `operation_id`) to an operation of
group `g` with kind `ty`? -/
def entryHits (ops : List CaseOperationRow) (e : InventoryEntryRow) (g : Nat) (ty : String) : Bool :=
  ops.any (fun op => e.operationId == some op.id && op.groupId == g && op.opType == some ty)

/-- Total amount of the given ledger rows posted to operations of kind `ty`
in group `g` among `ops`. -/
def totalOf (ops : List CaseOperationRow) (entries : List InventoryEntryRow) (g : Nat) (ty : String) : Int :=
  (entries.map (fun e => if entryHits ops e g ty then e.amount else 0)).sum

/-- Total ledger amount posted to operations of kind `ty` in group `g`. -/
def typedTotal (g : Nat) (ty : String) (s : DbState) : Int :=
  totalOf s.operations s.entries g ty

/-- `acc` with `c` appended when not already present: the order in which the
find-or-create of `getCaseOperation` first meets each distinct case. -/
def insertNew (acc : List Nat) (c : Nat) : List Nat :=
  if c ∈ acc then acc else acc ++ [c]

/-- The distinct resolvable cases referenced by a list of line items, in
first-occurrence order. -/
def distinctResolvedCases (env : MigrationEnv) (ds : List ActivityDetail) : List Nat :=
  ds.foldl (fun acc d =>
    match env.caseIdMap d.caseId with
    | some c => insertNew acc c
    | none => acc) []

/-- The ledger rows for one (operationId, wineId, bottleFormatId,
bottleVintageId) key. -/
def entriesForKey (s : DbState) (opId w f v : Nat) : List InventoryEntryRow :=
  s.entries.filter (fun e =>
    e.operationId == some opId && e.wineId == w &&
    e.bottleFormatId == f && e.bottleVintageId == v)

/-- Well-formedness of the uuid counter: every id already present in the
store is strictly below `nextId` (true of any state reachable from an empty
store, since every insert consumes one fresh id). -/
def stateWF (s : DbState) : Bool :=
  s.operations.all (fun op => op.id < s.nextId) &&
  s.entries.all (fun e => e.id < s.nextId) &&
  s.entries.all (fun e => e.operationId.all (fun oid => oid < s.nextId))

namespace MigrateScript

/-! Shallow embedding of `scripts/migrate-specific-activity.js`
(class `SpecificActivityMigrator`). -/

/-- `parseActivityStatus` (migrate-specific-activity.js:348): legacy status
code → operation status string, with a `default` branch returning
`"pending"`. -/
def parseActivityStatus (status : Int) : String :=
  if status = 1 then "processed"
  else if status = 2 then "on_hold"
  else if status = 3 then "confirmed"
  else if status = 4 then "on_hold"
  else "pending"

/-- `parseActivityTransactionType` (migrate-specific-activity.js:363): legacy
transaction code → operation kind, with a `default` branch `"other"`. -/
def parseActivityTransactionType (activity : LegacyActivity) : String :=
  if activity.transactionType = "D" then "deposit"
  else if activity.transactionType = "W" then "withdrawal"
  else if activity.transactionType = "T" then "transfer"
  else "other"

/-- `getActivityDetails` (migrate-specific-activity.js:339): the activity's
line items, excluding `"Supply"` kind lines (a falsy `ActivityID` is also
excluded). -/
def getActivityDetails (env : MigrationEnv) (activityId : Nat) : List ActivityDetail :=
  env.activityDetails.filter (fun d =>
    d.activityId != 0 && d.activityId == activityId && d.activityType != "Supply")

/-- `getWinePropFromCaseDetail` (migrate-specific-activity.js:729): backfill a
wine property from the referenced case-detail record; `none` when the record
is missing, the property name is unknown, or the stored value is null. -/
def getWinePropFromCaseDetail (env : MigrationEnv) (caseDetailId : Nat) (prop : String) : Option Nat :=
  match env.caseDetails.find? (fun cd => cd.legacyCaseDetailId == caseDetailId) with
  | none => none
  | some cd =>
    if prop = "wineId" then cd.legacyWineItemId
    else if prop = "bottleFormatId" then cd.legacyBottleSizeId
    else if prop = "bottleVintageId" then cd.legacyVintageId
    else none

/-- The `activityDetail.WineItemID || getWinePropFromCaseDetail(...)`
fallback chain of `validateInventoryActivityDetail` for the wine id. -/
def legacyWineOf (env : MigrationEnv) (d : ActivityDetail) : Option Nat :=
  d.wineItemId <|> getWinePropFromCaseDetail env d.caseDetailId "wineId"

/-- Same as `legacyWineOf`, for `BottleSizeID`. -/
def legacyFormatOf (env : MigrationEnv) (d : ActivityDetail) : Option Nat :=
  d.bottleSizeId <|> getWinePropFromCaseDetail env d.caseDetailId "bottleFormatId"

/-- Same as `legacyWineOf`, for `VintageID`. -/
def legacyVintageOf (env : MigrationEnv) (d : ActivityDetail) : Option Nat :=
  d.vintageId <|> getWinePropFromCaseDetail env d.caseDetailId "bottleVintageId"

/-- `createNewWine` (migrate-specific-activity.js:750): unconditionally
INSERT a new wine row carrying the legacy id and description. -/
def createNewWine (s : DbState) (legacyWineId : Nat) (description : String) : Nat × DbState :=
  (s.nextId,
   { s with
     wines := s.wines ++ [⟨s.nextId, legacyWineId, description⟩],
     nextId := s.nextId + 1 })

/-- `validateInventoryActivityDetail` (migrate-specific-activity.js:673):
resolve the line's wine / bottle-format / bottle-vintage target ids
(auto-creating a placeholder wine when the wine is unknown); `none` models
both the caught `.toString()` TypeError on a missing legacy id and the final
missing-target check, after which the caller skips the line. -/
def validateInventoryActivityDetail (env : MigrationEnv) (s : DbState) (d : ActivityDetail) : Option (Nat × Nat × Nat) × DbState :=
  match legacyWineOf env d with
  | none => (none, s)
  | some lw =>
    let r := getNewWineId s lw
    match legacyFormatOf env d with
    | none => (none, r.2)
    | some lf =>
      match legacyVintageOf env d with
      | none => (none, r.2)
      | some lv =>
        let wr := match r.1 with
          | some w => (w, r.2)
          | none => createNewWine r.2 lw ("Legacy Wine - Veritas - " ++ toString lw)
        match env.formatMap lf, env.vintageMap lv with
        | some f, some v => (some (wr.1, f, v), wr.2)
        | _, _ => (none, wr.2)

/-- Success predicate of `validateInventoryActivityDetail`: it is
state-independent because an unknown wine is always auto-created, so only
the three legacy ids and the two static lookups can fail. -/
def validateOk (env : MigrationEnv) (d : ActivityDetail) : Bool :=
  match legacyWineOf env d with
  | none => false
  | some _ =>
    match legacyFormatOf env d with
    | none => false
    | some lf =>
      match legacyVintageOf env d with
      | none => false
      | some lv =>
        match env.formatMap lf, env.vintageMap lv with
        | some _, some _ => true
        | _, _ => false

/-- The JSON text `JSON.stringify([{ legacy_activity_id: activity.ActivityID }])`
stored in the `logs` column of every case operation this script creates
(`ActivityID` is the numeric legacy id, so it is rendered unquoted). -/
def migrateStamp (id : Nat) : String :=
  "[\x7b\"legacy_activity_id\":" ++ toString id ++ "\x7d]"

/-- `createCaseOperationFromActivityDetail` (migrate-specific-activity.js:577):
INSERT one case operation for the line's case, stamping the legacy activity
id into `logs`; `none` when the legacy case is unmapped.  (The uuid minted
before the failing lookup is unused and not modelled.) -/
def createCaseOperationFromActivityDetail (env : MigrationEnv) (operationGroupId : Nat) (d : ActivityDetail) (activity : LegacyActivity) (s : DbState) : Option Nat × DbState :=
  match env.caseIdMap d.caseId with
  | none => (none, s)
  | some caseId =>
    (some s.nextId,
     { s with
       operations := s.operations ++
         [⟨s.nextId, caseId, some (parseActivityTransactionType activity),
           some (parseActivityStatus activity.status),
           migrateStamp activity.activityId, operationGroupId⟩],
       nextId := s.nextId + 1 })

/-- `getCaseOperation` (migrate-specific-activity.js:561): find the existing
operation of `(groupId, caseId)` and return its id, else create one. -/
def getCaseOperation (env : MigrationEnv) (operationGroupId caseId : Nat) (activity : LegacyActivity) (d : ActivityDetail) (s : DbState) : Option Nat × DbState :=
  match s.operations.find? (fun op =>
      op.groupId == operationGroupId && op.caseId == caseId) with
  | none => createCaseOperationFromActivityDetail env operationGroupId d activity s
  | some op => (some op.id, s)

/-- `getCaseOperationFromActivityDetail` (migrate-specific-activity.js:539). -/
def getCaseOperationFromActivityDetail (env : MigrationEnv) (operationGroupId : Nat) (d : ActivityDetail) (activity : LegacyActivity) (s : DbState) : Option Nat × DbState :=
  match env.caseIdMap d.caseId with
  | none => (none, s)
  | some caseId => getCaseOperation env operationGroupId caseId activity d s

/-- `createOrUpdateCaseOperationFromActivityDepositOrWithdrawalActivityDetail`
(migrate-specific-activity.js:425): find-or-create the case operation, then
post the line's quantity to its ledger; unresolved case or wine data skips
the line. -/
def createOrUpdateCaseOperationFromActivityDepositOrWithdrawalActivityDetail (env : MigrationEnv) (operationGroupId : Nat) (d : ActivityDetail) (activity : LegacyActivity) (s : DbState) : DbState :=
  match getCaseOperationFromActivityDetail env operationGroupId d activity s with
  | (none, s1) => s1
  | (some opId, s1) =>
    match validateInventoryActivityDetail env s1 d with
    | (none, s2) => s2
    | (some (w, f, v), s2) => createCaseOperationInventoryEntry s2 opId w f v d.quantity

/-- `createCaseOperationsFromActivityDepositOrWithdrawal`
(migrate-specific-activity.js:398): fold the simple path over the activity's
line items. -/
def createCaseOperationsFromActivityDepositOrWithdrawal (env : MigrationEnv) (activity : LegacyActivity) (operationGroupId : Nat) (s : DbState) : DbState :=
  (getActivityDetails env activity.activityId).foldl
    (fun s d => createOrUpdateCaseOperationFromActivityDepositOrWithdrawalActivityDetail env operationGroupId d activity s) s

/-- `createCaseOperationFromActivityTransfer` (migrate-specific-activity.js:617):
unconditionally INSERT a fresh case operation of kind `ty` on `caseId`,
stamping the legacy activity id into `logs`. -/
def createCaseOperationFromActivityTransfer (operationGroupId : Nat) (activity : LegacyActivity) (caseId : Nat) (ty : String) (s : DbState) : Nat × DbState :=
  (s.nextId,
   { s with
     operations := s.operations ++
       [⟨s.nextId, caseId, some ty, some (parseActivityStatus activity.status),
         migrateStamp activity.activityId, operationGroupId⟩],
     nextId := s.nextId + 1 })

/-- `getCaseIdFromCaseDetail` (migrate-specific-activity.js:649): the new id
of the case owning the referenced case-detail record. -/
def getCaseIdFromCaseDetail (env : MigrationEnv) (caseDetailId : Nat) : Option Nat :=
  match env.caseDetails.find? (fun cd => cd.legacyCaseDetailId == caseDetailId) with
  | none => none
  | some cd => env.caseIdMap cd.legacyCaseId

/-- `createCaseOperationFromActivityTransferActivityDetail`
(migrate-specific-activity.js:466): the transfer path for one line item:
skip `"Case"` lines and non-`"Bottle"` lines; resolve source (via case
detail) and destination cases; validate wine data; then always create a
fresh withdrawal operation on the source case and a fresh deposit operation
on the destination case, posting the same quantity to both ledgers. -/
def createCaseOperationFromActivityTransferActivityDetail (env : MigrationEnv) (operationGroupId : Nat) (d : ActivityDetail) (activity : LegacyActivity) (s : DbState) : DbState :=
  if d.activityType == "Case" then s
  else if d.activityType != "Bottle" then s
  else
    match getCaseIdFromCaseDetail env d.caseDetailId, env.caseIdMap d.caseId with
    | some sourceCaseId, some destinationCaseId =>
      (match validateInventoryActivityDetail env s d with
       | (none, s1) => s1
       | (some (w, f, v), s1) =>
         let r1 := createCaseOperationFromActivityTransfer operationGroupId activity sourceCaseId "withdrawal" s1
         let s2 := createCaseOperationInventoryEntry r1.2 r1.1 w f v d.quantity
         let r2 := createCaseOperationFromActivityTransfer operationGroupId activity destinationCaseId "deposit" s2
         createCaseOperationInventoryEntry r2.2 r2.1 w f v d.quantity)
    | _, _ => s

/-- `createCaseOperationsFromActivityTransfer`
(migrate-specific-activity.js:413): fold the transfer path over the
activity's line items. -/
def createCaseOperationsFromActivityTransfer (env : MigrationEnv) (activity : LegacyActivity) (operationGroupId : Nat) (s : DbState) : DbState :=
  (getActivityDetails env activity.activityId).foldl
    (fun s d => createCaseOperationFromActivityTransferActivityDetail env operationGroupId d activity s) s

/-- `createOperationGroup` (migrate-specific-activity.js:376): INSERT one
operation group for the customer with the mapped status. -/
def createOperationGroup (customerId : Nat) (activity : LegacyActivity) (s : DbState) : Nat × DbState :=
  (s.nextId,
   { s with
     groups := s.groups ++ [⟨s.nextId, customerId, some (parseActivityStatus activity.status)⟩],
     nextId := s.nextId + 1 })

/-- `migrateActivity` (migrate-specific-activity.js:296): create the group,
then dispatch on the transaction kind. -/
def migrateActivity (env : MigrationEnv) (customerId : Nat) (activity : LegacyActivity) (s : DbState) : DbState :=
  let r := createOperationGroup customerId activity s
  if activity.transactionType == "D" || activity.transactionType == "W" then
    createCaseOperationsFromActivityDepositOrWithdrawal env activity r.1 r.2
  else if activity.transactionType == "T" then
    createCaseOperationsFromActivityTransfer env activity r.1 r.2
  else r.2

/-- `findExistingOperationGroup` (migrate-specific-activity.js:236): the
group of any case operation whose `logs` text contains the quoted pattern
`"legacy_activity_id":"<id>"` (SQL `LIKE '%...%'`). -/
def findExistingOperationGroup (s : DbState) (activityId : Nat) : Option Nat :=
  (s.operations.find? (fun op =>
    strContains op.logs ("\"legacy_activity_id\":\"" ++ toString activityId ++ "\""))).map
    (fun op => op.groupId)

/-- The already-migrated guard of `migrate` (migrate-specific-activity.js:144):
when `findExistingOperationGroup` hits and `--clear-existing` is not set,
return without migrating.  (The `--clear-existing` deletion branch is not
modelled; the theorems below only instantiate `clearExisting := false`.) -/
def migrateActivityGuarded (env : MigrationEnv) (customerId : Nat) (activity : LegacyActivity) (clearExisting : Bool) (s : DbState) : DbState :=
  if (findExistingOperationGroup s activity.activityId).isSome && !clearExisting then s
  else migrateActivity env customerId activity s

/-- A transfer line item is reconciled when it is a `"Bottle"` line whose
source case (via its case detail), destination case and wine data all
resolve; `validateInventoryActivityDetail`'s success is state-independent
(`validateOk`), so this is a pure predicate of the line. -/
def transferReconciled (env : MigrationEnv) (d : ActivityDetail) : Bool :=
  d.activityType == "Bottle" &&
  (getCaseIdFromCaseDetail env d.caseDetailId).isSome &&
  (env.caseIdMap d.caseId).isSome &&
  validateOk env d

/-- The sum of the quantities of the reconciled transfer line items. -/
def reconciledQty (env : MigrationEnv) (ds : List ActivityDetail) : Int :=
  (ds.map (fun d => if transferReconciled env d then d.quantity else 0)).sum

/-- The tail of `createCaseOperationFromActivityTransferActivityDetail` as
executed for one validated line: fresh withdrawal operation on the source
case with its posted ledger entry, then fresh deposit operation on the
destination case with its posted ledger entry, both carrying quantity `q`. -/
def transferLegsPosting (operationGroupId : Nat) (activity : LegacyActivity) (sourceCaseId destinationCaseId w f v : Nat) (q : Int) (s : DbState) : DbState :=
  let r1 := createCaseOperationFromActivityTransfer operationGroupId activity sourceCaseId "withdrawal" s
  let s2 := createCaseOperationInventoryEntry r1.2 r1.1 w f v q
  let r2 := createCaseOperationFromActivityTransfer operationGroupId activity destinationCaseId "deposit" s2
  createCaseOperationInventoryEntry r2.2 r2.1 w f v q

end MigrateScript

namespace ImportScript

/-! Shallow embedding of `scripts/import-case-data.js`
(class `LegacyCaseDataSeeder`). -/

/-- `parseActivityStatus` (import-case-data.js:395): legacy status code →
operation status string; the `switch` has no `default`, so any other code
yields `undefined` (`none`). -/
def parseActivityStatus (status : Int) : Option String :=
  if status = 1 then some "processed"
  else if status = 2 then some "on_hold"
  else if status = 3 then some "confirmed"
  else if status = 4 then some "on_hold"
  else none

/-- `parseActivityTransactionType` (import-case-data.js:408): only `"D"` and
`"W"` are mapped; anything else yields `undefined`. -/
def parseActivityTransactionType (activity : LegacyActivity) : Option String :=
  if activity.transactionType = "D" then some "deposit"
  else if activity.transactionType = "W" then some "withdrawal"
  else none

/-- `getCustomerActivities` (import-case-data.js:1280): the legacy activities
of one account that are selected for reconciliation — those with a truthy
`AccountID` matching the account and `Status === 1`. -/
def getCustomerActivities (activities : List LegacyActivity) (legacyAccountId : Nat) : List LegacyActivity :=
  activities.filter (fun a =>
    a.accountId != 0 && a.accountId == legacyAccountId && a.status == 1)

/-- `getInventoryActivityDetails` (import-case-data.js:1232): the activity's
line items, excluding `"Supply"` kind lines. -/
def getInventoryActivityDetails (env : MigrationEnv) (activityId : Nat) : List ActivityDetail :=
  env.activityDetails.filter (fun d =>
    d.activityId != 0 && d.activityId == activityId && d.activityType != "Supply")

/-- `getWinePropFromCaseDetail` (import-case-data.js:465): like the migrate
variant, but additionally requires the case-detail's owning case to be
mapped before returning the property. -/
def getWinePropFromCaseDetail (env : MigrationEnv) (caseDetailId : Nat) (prop : String) : Option Nat :=
  match env.caseDetails.find? (fun cd => cd.legacyCaseDetailId == caseDetailId) with
  | none => none
  | some cd =>
    match env.caseIdMap cd.legacyCaseId with
    | none => none
    | some _ =>
      if prop = "wineId" then cd.legacyWineItemId
      else if prop = "bottleFormatId" then cd.legacyBottleSizeId
      else if prop = "bottleVintageId" then cd.legacyVintageId
      else none

/-- The `activityDetail.WineItemID || getWinePropFromCaseDetail(...)`
fallback chain of `validateInventoryActivityDetail` for the wine id. -/
def legacyWineOf (env : MigrationEnv) (d : ActivityDetail) : Option Nat :=
  d.wineItemId <|> getWinePropFromCaseDetail env d.caseDetailId "wineId"

/-- Same as `legacyWineOf`, for `BottleSizeID`. -/
def legacyFormatOf (env : MigrationEnv) (d : ActivityDetail) : Option Nat :=
  d.bottleSizeId <|> getWinePropFromCaseDetail env d.caseDetailId "bottleFormatId"

/-- Same as `legacyWineOf`, for `VintageID`. -/
def legacyVintageOf (env : MigrationEnv) (d : ActivityDetail) : Option Nat :=
  d.vintageId <|> getWinePropFromCaseDetail env d.caseDetailId "bottleVintageId"

/-- `createNewWine` (import-case-data.js:499): first re-check the wines table
for the legacy id and return the existing id if found; otherwise INSERT a
placeholder wine carrying the legacy id and description. -/
def createNewWine (s : DbState) (legacyWineId : Nat) (description : String) : Nat × DbState :=
  match s.wines.find? (fun w => w.legacyId == legacyWineId) with
  | some wine => (wine.id, s)
  | none =>
    (s.nextId,
     { s with
       wines := s.wines ++ [⟨s.nextId, legacyWineId, description⟩],
       nextId := s.nextId + 1 })

/-- The wine-resolution fragment of `validateInventoryActivityDetail`
(import-case-data.js:557 and 569-572) as it executes for a line whose legacy
wine id resolved: `getNewWineId` and, when that misses, the
`createNewWine(legacyWineId, "Legacy Wine - Veritas - " + legacyWineId)`
placeholder fallback. -/
def getNewWineIdOrCreate (s : DbState) (legacyWineId : Nat) : Nat × DbState :=
  let r := getNewWineId s legacyWineId
  match r.1 with
  | some w => (w, r.2)
  | none => createNewWine r.2 legacyWineId ("Legacy Wine - Veritas - " ++ toString legacyWineId)

/-- `validateInventoryActivityDetail` (import-case-data.js:528): identical
control flow to the migrate variant (the caught `.toString()` TypeError and
the final missing-target check both yield `none`), but using this script's
property backfill and check-then-insert `createNewWine`. -/
def validateInventoryActivityDetail (env : MigrationEnv) (s : DbState) (d : ActivityDetail) : Option (Nat × Nat × Nat) × DbState :=
  match legacyWineOf env d with
  | none => (none, s)
  | some lw =>
    let r := getNewWineId s lw
    match legacyFormatOf env d with
    | none => (none, r.2)
    | some lf =>
      match legacyVintageOf env d with
      | none => (none, r.2)
      | some lv =>
        let wr := match r.1 with
          | some w => (w, r.2)
          | none => createNewWine r.2 lw ("Legacy Wine - Veritas - " ++ toString lw)
        match env.formatMap lf, env.vintageMap lv with
        | some f, some v => (some (wr.1, f, v), wr.2)
        | _, _ => (none, wr.2)

/-- Success predicate of this script's `validateInventoryActivityDetail`
(state-independent, as for the migrate variant). -/
def validateOk (env : MigrationEnv) (d : ActivityDetail) : Bool :=
  match legacyWineOf env d with
  | none => false
  | some _ =>
    match legacyFormatOf env d with
    | none => false
    | some lf =>
      match legacyVintageOf env d with
      | none => false
      | some lv =>
        match env.formatMap lf, env.vintageMap lv with
        | some _, some _ => true
        | _, _ => false

/-- `createCaseOperationFromActivityDetail` (import-case-data.js:602): INSERT
one case operation for the line's case; unlike the migrate variant the
`logs` column is `JSON.stringify([])`, i.e. the empty array text. -/
def createCaseOperationFromActivityDetail (env : MigrationEnv) (operationGroupId : Nat) (d : ActivityDetail) (activity : LegacyActivity) (s : DbState) : Option Nat × DbState :=
  match env.caseIdMap d.caseId with
  | none => (none, s)
  | some caseId =>
    (some s.nextId,
     { s with
       operations := s.operations ++
         [⟨s.nextId, caseId, parseActivityTransactionType activity,
           parseActivityStatus activity.status, "[]", operationGroupId⟩],
       nextId := s.nextId + 1 })

/-- `getCaseOperation` (import-case-data.js:785): find the existing operation
of `(groupId, caseId)` and return its id, else create one. -/
def getCaseOperation (env : MigrationEnv) (operationGroupId caseId : Nat) (activity : LegacyActivity) (d : ActivityDetail) (s : DbState) : Option Nat × DbState :=
  match s.operations.find? (fun op =>
      op.groupId == operationGroupId && op.caseId == caseId) with
  | none => createCaseOperationFromActivityDetail env operationGroupId d activity s
  | some op => (some op.id, s)

/-- `getCaseOperationFromActivityDetail` (import-case-data.js:801). -/
def getCaseOperationFromActivityDetail (env : MigrationEnv) (operationGroupId : Nat) (d : ActivityDetail) (activity : LegacyActivity) (s : DbState) : Option Nat × DbState :=
  match env.caseIdMap d.caseId with
  | none => (none, s)
  | some caseId => getCaseOperation env operationGroupId caseId activity d s

/-- `createOrUpdateCaseOperationFromActivityDepositOrWithdrawalActivityDetail`
(import-case-data.js:885): find-or-create the case operation, then
destructure the result of `validateInventoryActivityDetail` (line 903).
When validation fails it returns `undefined`, and the destructuring throws a
TypeError that no surrounding handler catches — modelled as `.error ()`. -/
def createOrUpdateCaseOperationFromActivityDepositOrWithdrawalActivityDetail (env : MigrationEnv) (operationGroupId : Nat) (d : ActivityDetail) (activity : LegacyActivity) (s : DbState) : Except Unit DbState :=
  match getCaseOperationFromActivityDetail env operationGroupId d activity s with
  | (none, s1) => .ok s1
  | (some opId, s1) =>
    match validateInventoryActivityDetail env s1 d with
    | (none, _) => .error ()
    | (some (w, f, v), s2) => .ok (createCaseOperationInventoryEntry s2 opId w f v d.quantity)

/-- `createCaseOperationsFromActivityDepositOrWithdrawal`
(import-case-data.js:937): fold the simple path over the activity's line
items; a thrown TypeError aborts the loop (and the run). -/
def createCaseOperationsFromActivityDepositOrWithdrawal (env : MigrationEnv) (activity : LegacyActivity) (operationGroupId : Nat) (s : DbState) : Except Unit DbState :=
  (getInventoryActivityDetails env activity.activityId).foldlM
    (fun s d => createOrUpdateCaseOperationFromActivityDepositOrWithdrawalActivityDetail env operationGroupId d activity s) s

/-- `createCaseOperationFromActivityTransfer` (import-case-data.js:679):
unconditionally INSERT a fresh case operation of kind `ty`; `logs` is the
empty array text. -/
def createCaseOperationFromActivityTransfer (operationGroupId : Nat) (activity : LegacyActivity) (caseId : Nat) (ty : String) (s : DbState) : Nat × DbState :=
  (s.nextId,
   { s with
     operations := s.operations ++
       [⟨s.nextId, caseId, some ty, parseActivityStatus activity.status,
         "[]", operationGroupId⟩],
     nextId := s.nextId + 1 })

/-- `getCaseIdFromCaseDetail` (import-case-data.js:643). -/
def getCaseIdFromCaseDetail (env : MigrationEnv) (caseDetailId : Nat) : Option Nat :=
  match env.caseDetails.find? (fun cd => cd.legacyCaseDetailId == caseDetailId) with
  | none => none
  | some cd => env.caseIdMap cd.legacyCaseId

/-- `createCaseOperationFromActivityTransferActivityDetail`
(import-case-data.js:711): the transfer path for one line: skip `"Case"` and
non-`"Bottle"` lines, resolve source and destination cases, then destructure
the validation result (line 745) — a failed validation returns `undefined`
and the destructuring throws (`.error ()`); otherwise always create a fresh
withdrawal operation on the source case and a fresh deposit operation on the
destination case, posting the same quantity to both ledgers. -/
def createCaseOperationFromActivityTransferActivityDetail (env : MigrationEnv) (operationGroupId : Nat) (d : ActivityDetail) (activity : LegacyActivity) (s : DbState) : Except Unit DbState :=
  if d.activityType == "Case" then .ok s
  else if d.activityType != "Bottle" then .ok s
  else
    match getCaseIdFromCaseDetail env d.caseDetailId, env.caseIdMap d.caseId with
    | some sourceCaseId, some destinationCaseId =>
      (match validateInventoryActivityDetail env s d with
       | (none, _) => .error ()
       | (some (w, f, v), s1) =>
         let r1 := createCaseOperationFromActivityTransfer operationGroupId activity sourceCaseId "withdrawal" s1
         let s2 := createCaseOperationInventoryEntry r1.2 r1.1 w f v d.quantity
         let r2 := createCaseOperationFromActivityTransfer operationGroupId activity destinationCaseId "deposit" s2
         .ok (createCaseOperationInventoryEntry r2.2 r2.1 w f v d.quantity))
    | _, _ => .ok s

/-- `createCaseOperationsFromActivityTransfer` (import-case-data.js:961):
fold the transfer path over the activity's line items. -/
def createCaseOperationsFromActivityTransfer (env : MigrationEnv) (activity : LegacyActivity) (operationGroupId : Nat) (s : DbState) : Except Unit DbState :=
  (getInventoryActivityDetails env activity.activityId).foldlM
    (fun s d => createCaseOperationFromActivityTransferActivityDetail env operationGroupId d activity s) s

/-- `createOperationGroup` (import-case-data.js:417): INSERT the group, then
dispatch on the transaction kind (unrecognized kinds leave the group with no
operations). -/
def createOperationGroup (env : MigrationEnv) (customerId : Nat) (activity : LegacyActivity) (s : DbState) : Except Unit (Nat × DbState) :=
  let g := s.nextId
  let s1 :=
    { s with
      groups := s.groups ++ [⟨g, customerId, parseActivityStatus activity.status⟩],
      nextId := s.nextId + 1 }
  if activity.transactionType == "D" || activity.transactionType == "W" then
    (createCaseOperationsFromActivityDepositOrWithdrawal env activity g s1).map (fun s2 => (g, s2))
  else if activity.transactionType == "T" then
    (createCaseOperationsFromActivityTransfer env activity g s1).map (fun s2 => (g, s2))
  else .ok (g, s1)

/-- Import-script analogue of the migrate script's `transferReconciled`:
the line is a `"Bottle"` line and source case, destination case and wine
data all resolve (this script's `validateOk`). -/
def transferReconciled (env : MigrationEnv) (d : ActivityDetail) : Bool :=
  d.activityType == "Bottle" &&
  (getCaseIdFromCaseDetail env d.caseDetailId).isSome &&
  (env.caseIdMap d.caseId).isSome &&
  validateOk env d

/-- The tail of this script's
`createCaseOperationFromActivityTransferActivityDetail` for one validated
line: fresh withdrawal operation on the source case with its posted ledger
entry, then fresh deposit operation on the destination case with its
posted ledger entry. -/
def transferLegsPosting (operationGroupId : Nat) (activity : LegacyActivity) (sourceCaseId destinationCaseId w f v : Nat) (q : Int) (s : DbState) : DbState :=
  let r1 := createCaseOperationFromActivityTransfer operationGroupId activity sourceCaseId "withdrawal" s
  let s2 := createCaseOperationInventoryEntry r1.2 r1.1 w f v q
  let r2 := createCaseOperationFromActivityTransfer operationGroupId activity destinationCaseId "deposit" s2
  createCaseOperationInventoryEntry r2.2 r2.1 w f v q

end ImportScript

/-- Content of one `wine_inventory_entries` row as handled by the snapshot
seeding `seedWineInventoryEntriesFromCaseDetails`.  The freshly generated
uuid and the timestamps are not part of the row content this seeding is
observed by (each re-run mints new ones) and are omitted. -/
structure WineInventoryRow where
  operationId : Option Nat
  wineId : Nat
  bottleFormatId : Nat
  bottleVintageId : Nat
  amount : Int
  caseId : Option Nat
  deriving DecidableEq, Repr

/-- Static lookups for one snapshot-seeding run
(import-case-data.js:1131-1135 reloads all id maps from the target store;
the seeding never writes the wines / formats / vintages / cases tables, so
all four resolvers are pure lookups here). -/
structure SnapshotEnv where
  wineMap : Nat → Option Nat
  formatMap : Nat → Option Nat
  vintageMap : Nat → Option Nat
  caseIdMap : Nat → Option Nat
  caseDetails : List CaseDetail

namespace ImportScript

/-- The per-case-detail body of `seedWineInventoryEntriesFromCaseDetails`
(import-case-data.js:1151-1228): resolve wine, bottle format, bottle vintage
and case, require a strictly positive `WineQuantity` and a truthy
`legacy_case_id`, and produce the row to INSERT; any failed step skips the
detail (`none`).  A null `legacy_bottle_size_id` / `legacy_vintage_id` makes
the resolver throw on `.toString()`, which the loop's `try/catch` turns into
a skip; a null `WineQuantity` fails the `WineQuantity <= 0` guard
(`null <= 0` is true in JS) and is skipped as well. -/
def snapshotInsertFor (env : SnapshotEnv) (cd : CaseDetail) : Option WineInventoryRow :=
  match cd.legacyWineItemId with
  | none => none
  | some lw =>
    match env.wineMap lw with
    | none => none
    | some w =>
      match cd.legacyBottleSizeId with
      | none => none
      | some lf =>
        match env.formatMap lf with
        | none => none
        | some f =>
          match cd.legacyVintageId with
          | none => none
          | some lv =>
            match env.vintageMap lv with
            | none => none
            | some v =>
              match cd.wineQuantity with
              | none => none
              | some q =>
                if q ≤ 0 then none
                else if cd.legacyCaseId = 0 then none
                else
                  match env.caseIdMap cd.legacyCaseId with
                  | none => none
                  | some c => some ⟨none, w, f, v, q, some c⟩

/-- `seedWineInventoryEntriesFromCaseDetails` (import-case-data.js:1128):
with no case details the function returns before deleting anything;
otherwise it first DELETEs every entry with a null `operation_id` for the
tenant and then INSERTs one snapshot row per resolvable case detail with
positive quantity. -/
def seedWineInventoryEntriesFromCaseDetails (env : SnapshotEnv) (entries : List WineInventoryRow) : List WineInventoryRow :=
  if env.caseDetails.isEmpty then entries
  else
    entries.filter (fun e => e.operationId.isSome) ++
      env.caseDetails.filterMap (snapshotInsertFor env)

end ImportScript

/-! ### Concrete fixtures used by witnesses and counterexamples -/

/-- An empty target store with the uuid counter at 0. -/
def emptyDb : DbState := ⟨0, [], [], [], [], []⟩

/-- A store holding one unrelated ledger row, used by the C3 witness. -/
def c3State : DbState := ⟨5, [], [], [], [], [⟨0, some 9, 1, 1, 1, 3, none⟩]⟩

/-- Line item whose bottle format has no target mapping (C4). -/
def c4Detail : ActivityDetail := ⟨1, 600, "Bottle", 10, 0, some 7, some 8, some 9, 2⟩

/-- Deposit activity owning `c4Detail` (C4). -/
def c4Activity : LegacyActivity := ⟨600, 7, "D", 1⟩

/-- Environment for C4: the case resolves, the vintage resolves, but the
bottle format `8` has no mapping in the target store. -/
def c4Env : MigrationEnv :=
  ⟨fun n => if n = 10 then some 110 else none,
   fun _ => none,
   fun n => if n = 9 then some 209 else none,
   [],
   [c4Detail]⟩

/-- Snapshot-seeding environment with one fully resolvable case detail of
quantity 6 (C10). -/
def c10Env : SnapshotEnv :=
  ⟨fun n => if n = 7 then some 107 else none,
   fun n => if n = 8 then some 108 else none,
   fun n => if n = 9 then some 109 else none,
   fun n => if n = 20 then some 120 else none,
   [⟨40, 20, some 7, some 8, some 9, some 6⟩]⟩

/-- A pre-existing entries table mixing an operation-attached row and a
stale snapshot row (C10). -/
def c10Table : List WineInventoryRow :=
  [⟨some 3, 1, 1, 1, 2, none⟩, ⟨none, 1, 1, 1, 2, some 5⟩]

/-- The snapshot row seeded from `c10Env` (C10). -/
def c10Row : WineInventoryRow := ⟨none, 107, 108, 109, 6, some 120⟩

/-- Deposit activity for the C2 witness. -/
def c2Activity : LegacyActivity := ⟨700, 7, "D", 1⟩

/-- Environment for the C2 witness: three non-Supply lines of activity 700 —
two targeting legacy case 10, one targeting legacy case 11 — plus a Supply
line; no wine data resolves (the count of operations does not depend on it). -/
def c2Env : MigrationEnv :=
  ⟨fun n => if n = 10 then some 110 else if n = 11 then some 111 else none,
   fun _ => none,
   fun _ => none,
   [],
   [⟨1, 700, "Bottle", 10, 0, some 7, some 8, some 9, 2⟩,
    ⟨2, 700, "Bottle", 10, 0, some 7, some 8, some 9, 3⟩,
    ⟨3, 700, "Bottle", 11, 0, some 7, some 8, some 9, 4⟩,
    ⟨4, 700, "Supply", 10, 0, none, none, none, 1⟩]⟩

/-- Activity for the C6 witness. -/
def c6Activity : LegacyActivity := ⟨300, 7, "D", 1⟩

/-- Bottle line of activity 300 on legacy case 10 (C6). -/
def c6Detail : ActivityDetail := ⟨1, 300, "Bottle", 10, 0, some 7, some 8, some 9, 2⟩

/-- A store already holding a case operation whose logs contain the quoted
pattern `"legacy_activity_id":"300"` searched by
`findExistingOperationGroup` (C6). -/
def c6State : DbState :=
  ⟨5, [], [], [],
   [⟨1, 10, some "deposit", some "processed",
     "[\x7b\"legacy_activity_id\":\"300\"\x7d]", 3⟩], []⟩

/-- Transfer activity for the C1 witness. -/
def c1Activity : LegacyActivity := ⟨800, 7, "T", 3⟩

/-- Environment for the C1 witness: a "Case" relocation line, one fully
resolvable "Bottle" line of quantity 4 (source case 20 via case detail 40,
destination case 10), and one unresolvable "Bottle" line. -/
def c1Env : MigrationEnv :=
  ⟨fun n => if n = 10 then some 110 else if n = 20 then some 120 else none,
   fun n => if n = 8 then some 208 else none,
   fun n => if n = 9 then some 209 else none,
   [⟨40, 20, some 7, some 8, some 9, some 6⟩],
   [⟨1, 800, "Case", 10, 40, none, none, none, 1⟩,
    ⟨2, 800, "Bottle", 10, 40, some 7, some 8, some 9, 4⟩,
    ⟨3, 800, "Bottle", 10, 99, some 7, none, some 9, 5⟩]⟩

/-- Case-relocation line of transfer activity 800 (C7). -/
def c7CaseDetail : ActivityDetail := ⟨1, 800, "Case", 10, 40, none, none, none, 1⟩

/-- Fully resolvable bottle line of transfer activity 800 (C7). -/
def c7BottleDetail : ActivityDetail := ⟨2, 800, "Bottle", 10, 40, some 7, some 8, some 9, 4⟩

/-- Environment for the C7 witness: the relocation line and one resolvable
bottle line; wine 7 exists in `c7State`. -/
def c7Env : MigrationEnv :=
  ⟨fun n => if n = 10 then some 110 else if n = 20 then some 120 else none,
   fun n => if n = 8 then some 208 else none,
   fun n => if n = 9 then some 209 else none,
   [⟨40, 20, some 7, some 8, some 9, some 6⟩],
   [c7CaseDetail, c7BottleDetail]⟩

/-! ## Theorems -/

theorem isSubAt_append (pat suf : List Char) : isSubAt pat (pat ++ suf) = true := by
  induction pat with
  | nil => rfl
  | cons a as ih => simp [isSubAt, ih]

theorem hasSub_cons (pat : List Char) (a : Char) (t : List Char) :
    hasSub pat (a :: t) = (isSubAt pat (a :: t) || hasSub pat t) := rfl

theorem hasSub_append_left (pat l : List Char) (h : hasSub pat l = true) :
    ∀ pre : List Char, hasSub pat (pre ++ l) = true := by
  intro pre
  induction pre with
  | nil => simpa using h
  | cons a as ih =>
    rw [List.cons_append, hasSub_cons, ih]
    simp

/-- Any string of the shape `pre ++ pat ++ suf` contains `pat`. -/
theorem hasSub_of_parts (pre pat suf : List Char) :
    hasSub pat (pre ++ (pat ++ suf)) = true := by
  apply hasSub_append_left
  cases hp : pat ++ suf with
  | nil =>
    have : pat = [] := by cases pat with
      | nil => rfl
      | cons a as => simp at hp
    subst this
    rfl
  | cons a as =>
    rw [hasSub_cons, ← hp, isSubAt_append]
    simp

/-! ### Generic list helpers -/

theorem find?_append_of_none {α : Type} (p : α → Bool) (l1 l2 : List α)
    (h : l1.find? p = none) : (l1 ++ l2).find? p = l2.find? p := by
  induction l1 with
  | nil => simp
  | cons a t ih =>
    cases hpa : p a with
    | true => rw [List.find?_cons_of_pos _ hpa] at h; exact absurd h (by simp)
    | false =>
      rw [List.find?_cons_of_neg _ (by simp [hpa])] at h
      rw [List.cons_append, List.find?_cons_of_neg _ (by simp [hpa])]
      exact ih h

theorem filter_nil_forall {α : Type} (p : α → Bool) (l : List α) (h : l.filter p = []) :
    ∀ a ∈ l, p a = false := by
  induction l with
  | nil => intro a ha; cases ha
  | cons a t ih =>
    intro x hx
    cases hpa : p a with
    | true => simp [List.filter_cons, hpa] at h
    | false =>
      have h' : t.filter p = [] := by simpa [List.filter_cons, hpa] using h
      rcases List.mem_cons.mp hx with rfl | hxt
      · exact hpa
      · exact ih h' x hxt

theorem find?_none_of_forall {α : Type} (p : α → Bool) (l : List α)
    (h : ∀ a ∈ l, p a = false) : l.find? p = none := by
  induction l with
  | nil => rfl
  | cons a t ih =>
    rw [List.find?_cons_of_neg _ (by simp [h a (by simp)])]
    exact ih (fun x hx => h x (List.mem_cons_of_mem a hx))

theorem map_id_of_eq {α : Type} (f : α → α) (l : List α) (h : ∀ a ∈ l, f a = a) :
    l.map f = l := by
  induction l with
  | nil => rfl
  | cons a t ih =>
    simp only [List.map_cons, h a (by simp),
      ih (fun x hx => h x (List.mem_cons_of_mem a hx))]

/-- **C3.** Ledger idempotent accumulation
(`createCaseOperationInventoryEntry`, import-case-data.js:830 and
migrate-specific-activity.js:768): for an operation and a
(wine, bottle-format, bottle-vintage) key with no existing ledger row,
posting amount `a` inserts exactly one row for the key carrying exactly `a`,
and then posting `b` leaves exactly one row for the key carrying `a + b` —
the second post adds to the existing amount instead of inserting a second
row or overwriting. -/
theorem ledger_idempotent_accumulation (s : DbState) (opId w f v : Nat) (a b : Int)
    (hfresh : ∀ e ∈ s.entries, e.id < s.nextId)
    (h0 : entriesForKey s opId w f v = []) :
    ((entriesForKey (createCaseOperationInventoryEntry s opId w f v a) opId w f v).map
        (fun e => e.amount) = [a]) ∧
    ((entriesForKey
        (createCaseOperationInventoryEntry
          (createCaseOperationInventoryEntry s opId w f v a) opId w f v b) opId w f v).map
        (fun e => e.amount) = [a + b]) := by
  simp only [entriesForKey] at h0
  have hall := filter_nil_forall _ _ h0
  have hfind : s.entries.find? (fun e =>
      e.operationId == some opId && e.wineId == w &&
      e.bottleFormatId == f && e.bottleVintageId == v) = none :=
    find?_none_of_forall _ _ hall
  set e0 : InventoryEntryRow := ⟨s.nextId, some opId, w, f, v, a, none⟩ with he0
  have hs1 : createCaseOperationInventoryEntry s opId w f v a =
      { s with entries := s.entries ++ [e0], nextId := s.nextId + 1 } := by
    simp only [createCaseOperationInventoryEntry, hfind]
  have hkey0 : (e0.operationId == some opId && e0.wineId == w &&
      e0.bottleFormatId == f && e0.bottleVintageId == v) = true := by
    simp [he0]
  have hfk1 : entriesForKey (createCaseOperationInventoryEntry s opId w f v a) opId w f v = [e0] := by
    rw [hs1]
    simp only [entriesForKey, List.filter_append, h0, List.nil_append]
    simp [List.filter_cons, hkey0]
  constructor
  · rw [hfk1]; rfl
  · have hfind1 : (s.entries ++ [e0]).find? (fun e =>
        e.operationId == some opId && e.wineId == w &&
        e.bottleFormatId == f && e.bottleVintageId == v) = some e0 := by
      rw [find?_append_of_none _ _ _ hfind]
      exact List.find?_cons_of_pos _ hkey0
    have hs2 : createCaseOperationInventoryEntry
        (createCaseOperationInventoryEntry s opId w f v a) opId w f v b =
        { s with
          entries := s.entries ++ [{ e0 with amount := e0.amount + b }],
          nextId := s.nextId + 1 } := by
      rw [hs1]
      simp only [createCaseOperationInventoryEntry, hfind1]
      congr 1
      rw [List.map_append]
      congr 1
      · exact map_id_of_eq _ _ (fun e he => by
          have : e.id ≠ e0.id := Nat.ne_of_lt (hfresh e he)
          simp [this])
      · simp
    rw [hs2]
    simp only [entriesForKey, List.filter_append, h0, List.nil_append]
    have hkey1 : (({ e0 with amount := e0.amount + b } : InventoryEntryRow).operationId == some opId &&
        ({ e0 with amount := e0.amount + b } : InventoryEntryRow).wineId == w &&
        ({ e0 with amount := e0.amount + b } : InventoryEntryRow).bottleFormatId == f &&
        ({ e0 with amount := e0.amount + b } : InventoryEntryRow).bottleVintageId == v) = true := by
      simp [he0]
    simp [List.filter_cons, hkey1, he0]

theorem filter_nil_of_forall {α : Type} (p : α → Bool) (l : List α)
    (h : ∀ a ∈ l, p a = false) : l.filter p = [] := by
  induction l with
  | nil => rfl
  | cons a t ih =>
    simp [List.filter_cons, h a (by simp),
      ih (fun x hx => h x (List.mem_cons_of_mem a hx))]

theorem filter_idem {α : Type} (p : α → Bool) (l : List α) :
    (l.filter p).filter p = l.filter p := by
  induction l with
  | nil => rfl
  | cons a t ih =>
    cases hpa : p a with
    | true => simp [List.filter_cons, hpa, ih]
    | false => simp [List.filter_cons, hpa, ih]

/-- Witness for `ledger_idempotent_accumulation`: a concrete state with an
unrelated ledger row, key `(2,1,1,1)` empty, posting `4` then `6`. -/
theorem ledger_idempotent_accumulation_witness :
    (∀ e ∈ c3State.entries, e.id < c3State.nextId) ∧
    entriesForKey c3State 2 1 1 1 = [] ∧
    (((entriesForKey (createCaseOperationInventoryEntry c3State 2 1 1 1 4) 2 1 1 1).map
        (fun e => e.amount) = [4]) ∧
     ((entriesForKey
        (createCaseOperationInventoryEntry
          (createCaseOperationInventoryEntry c3State 2 1 1 1 4) 2 1 1 1 6) 2 1 1 1).map
        (fun e => e.amount) = [4 + 6])) :=
  ⟨by decide, by decide,
   ledger_idempotent_accumulation c3State 2 1 1 1 4 6 (by decide) (by decide)⟩

/-- **C8 counterexample.** The claim says every legacy status code outside
{1,2,3,4} has an undefined mapped status because the mapping falls through
without a default; but `migrate-specific-activity.js`'s `parseActivityStatus`
has a `default` branch and maps code 5 to the defined value `"pending"`
(only the import script's variant is undefined there). -/
theorem status_mapping_no_default_cex :
    MigrateScript.parseActivityStatus 5 = "pending" ∧
    ImportScript.parseActivityStatus 5 = none := by
  constructor <;> decide

/-- **C8 (amended).** Both scripts map 1 ↦ processed, 2 ↦ on_hold,
3 ↦ confirmed, 4 ↦ on_hold deterministically; for every other code
the full-import script's mapping is undefined (no default), while the
migrate script's returns the default `"pending"`. -/
theorem status_mapping (st : Int)
    (h1 : st ≠ 1) (h2 : st ≠ 2) (h3 : st ≠ 3) (h4 : st ≠ 4) :
    ImportScript.parseActivityStatus 1 = some "processed" ∧
    ImportScript.parseActivityStatus 2 = some "on_hold" ∧
    ImportScript.parseActivityStatus 3 = some "confirmed" ∧
    ImportScript.parseActivityStatus 4 = some "on_hold" ∧
    MigrateScript.parseActivityStatus 1 = "processed" ∧
    MigrateScript.parseActivityStatus 2 = "on_hold" ∧
    MigrateScript.parseActivityStatus 3 = "confirmed" ∧
    MigrateScript.parseActivityStatus 4 = "on_hold" ∧
    ImportScript.parseActivityStatus st = none ∧
    MigrateScript.parseActivityStatus st = "pending" := by
  refine ⟨by decide, by decide, by decide, by decide, by decide, by decide,
    by decide, by decide, ?_, ?_⟩
  · simp [ImportScript.parseActivityStatus, h1, h2, h3, h4]
  · simp [MigrateScript.parseActivityStatus, h1, h2, h3, h4]

/-- Witness for `status_mapping` at the concrete unmapped code 5. -/
theorem status_mapping_witness :
    ((5 : Int) ≠ 1) ∧ ((5 : Int) ≠ 2) ∧ ((5 : Int) ≠ 3) ∧ ((5 : Int) ≠ 4) ∧
    (ImportScript.parseActivityStatus 1 = some "processed" ∧
     ImportScript.parseActivityStatus 2 = some "on_hold" ∧
     ImportScript.parseActivityStatus 3 = some "confirmed" ∧
     ImportScript.parseActivityStatus 4 = some "on_hold" ∧
     MigrateScript.parseActivityStatus 1 = "processed" ∧
     MigrateScript.parseActivityStatus 2 = "on_hold" ∧
     MigrateScript.parseActivityStatus 3 = "confirmed" ∧
     MigrateScript.parseActivityStatus 4 = "on_hold" ∧
     ImportScript.parseActivityStatus 5 = none ∧
     MigrateScript.parseActivityStatus 5 = "pending") :=
  ⟨by decide, by decide, by decide, by decide,
   status_mapping 5 (by decide) (by decide) (by decide) (by decide)⟩

/-- **C5 counterexample.** The claim says exactly the activities whose legacy
status maps to "confirmed" are selected; but `getCustomerActivities` filters
on `Status === 1`, whose mapped status is "processed": an activity with
status 3 (mapped "confirmed") is not selected, while one with status 1
(mapped "processed") is. -/
theorem confirmed_status_not_selected_cex :
    ImportScript.parseActivityStatus (⟨501, 7, "D", 3⟩ : LegacyActivity).status = some "confirmed" ∧
    ImportScript.getCustomerActivities [⟨501, 7, "D", 3⟩] 7 = [] ∧
    ImportScript.parseActivityStatus (⟨502, 7, "D", 1⟩ : LegacyActivity).status = some "processed" ∧
    ImportScript.getCustomerActivities [⟨502, 7, "D", 1⟩] 7 = [⟨502, 7, "D", 1⟩] := by
  refine ⟨by decide, by decide, by decide, by decide⟩

/-- **C5 (amended).** For every customer, exactly those legacy activities
with a truthy account id equal to the customer's and legacy status code 1 —
the code whose mapped lifecycle status is "processed" — are selected for
reconciliation by `getCustomerActivities`; all other statuses are excluded. -/
theorem activity_selection (acts : List LegacyActivity) (accId : Nat) (a : LegacyActivity) :
    (a ∈ ImportScript.getCustomerActivities acts accId ↔
      a ∈ acts ∧ a.accountId ≠ 0 ∧ a.accountId = accId ∧ a.status = 1) ∧
    ImportScript.parseActivityStatus 1 = some "processed" := by
  constructor
  · simp [ImportScript.getCustomerActivities, List.mem_filter, and_assoc]
  · decide

/-- **C4 (code bug).** A deposit line item whose bottle format cannot be
resolved is *not* skipped by `import-case-data.js`: after
`validateInventoryActivityDetail` returns `undefined`, line 903 destructures
it and throws a TypeError that no handler catches, aborting the whole run
(modelled as `.error ()`) — both for the single line and for the enclosing
per-activity loop. -/
theorem dw_unresolved_format_aborts :
    ImportScript.createOrUpdateCaseOperationFromActivityDepositOrWithdrawalActivityDetail
      c4Env 50 c4Detail c4Activity emptyDb = .error () ∧
    ImportScript.createCaseOperationsFromActivityDepositOrWithdrawal
      c4Env c4Activity 50 emptyDb = .error () := by
  constructor <;> rfl

/-- **C10.** Re-running the case-detail snapshot seeding is idempotent on the
entries table: it deletes every null-operation entry for the tenant and
re-inserts one row per fully resolvable, positive-quantity case detail, so
two consecutive runs leave the same table as one; and every inserted
snapshot row has a positive amount, a non-null case id (and a null
operation id). -/
theorem snapshot_seeding_idempotent (env : SnapshotEnv) (t : List WineInventoryRow) :
    ImportScript.seedWineInventoryEntriesFromCaseDetails env
        (ImportScript.seedWineInventoryEntriesFromCaseDetails env t) =
      ImportScript.seedWineInventoryEntriesFromCaseDetails env t ∧
    ∀ e ∈ env.caseDetails.filterMap (ImportScript.snapshotInsertFor env),
      e.operationId = none ∧ 0 < e.amount ∧ e.caseId.isSome = true := by
  have hspec : ∀ cd e, ImportScript.snapshotInsertFor env cd = some e →
      e.operationId = none ∧ 0 < e.amount ∧ e.caseId.isSome = true := by
    intro cd e h
    unfold ImportScript.snapshotInsertFor at h
    repeat' split at h
    all_goals cases h
    exact ⟨rfl, by dsimp only; omega, rfl⟩
  have hins : ∀ e ∈ env.caseDetails.filterMap (ImportScript.snapshotInsertFor env),
      e.operationId = none ∧ 0 < e.amount ∧ e.caseId.isSome = true := by
    intro e he
    rcases List.mem_filterMap.mp he with ⟨cd, _, hf⟩
    exact hspec cd e hf
  refine ⟨?_, hins⟩
  by_cases hemp : env.caseDetails.isEmpty
  · simp [ImportScript.seedWineInventoryEntriesFromCaseDetails, hemp]
  · simp only [ImportScript.seedWineInventoryEntriesFromCaseDetails, hemp, if_neg,
      Bool.false_eq_true, not_false_eq_true, if_false]
    rw [List.filter_append, filter_idem]
    have hnone : (env.caseDetails.filterMap (ImportScript.snapshotInsertFor env)).filter
        (fun e => e.operationId.isSome) = [] := by
      apply filter_nil_of_forall
      intro e he
      rcases hins e he with ⟨h1, _, _⟩
      simp [h1]
    rw [hnone, List.append_nil]

/-- Witness for `snapshot_seeding_idempotent` at the concrete environment
`c10Env` and pre-existing table `c10Table`. -/
theorem snapshot_seeding_idempotent_witness :
    (ImportScript.seedWineInventoryEntriesFromCaseDetails c10Env
        (ImportScript.seedWineInventoryEntriesFromCaseDetails c10Env c10Table) =
      ImportScript.seedWineInventoryEntriesFromCaseDetails c10Env c10Table) ∧
    c10Row ∈ c10Env.caseDetails.filterMap (ImportScript.snapshotInsertFor c10Env) ∧
    (c10Row.operationId = none ∧ 0 < c10Row.amount ∧ c10Row.caseId.isSome = true) :=
  ⟨(snapshot_seeding_idempotent c10Env c10Table).1, by decide,
   (snapshot_seeding_idempotent c10Env c10Table).2 c10Row (by decide)⟩

theorem strContains_append_right (pre pat : String) :
    strContains (pre ++ pat) pat = true := by
  unfold strContains
  have h : (pre ++ pat).toList = pre.toList ++ (pat.toList ++ []) := by
    simp [String.toList, String.data_append pre pat]
  rw [h]
  exact hasSub_of_parts _ _ _

/-- **C9.** Placeholder wine creation is one-shot per run
(`getNewWineId` import-case-data.js:981 with the `createNewWine` fallback
at import-case-data.js:499): starting from a store with no wine for a legacy
wine id (and a cache consistent with the wines table), the first resolution
creates exactly one placeholder row, whose description contains the legacy
id; the second resolution returns the same id without touching the wines
table; and the state after the second resolution is a fixpoint, so every
subsequent line in the run resolves to the same placeholder. -/
theorem placeholder_wine_created_once (s : DbState) (lw : Nat)
    (hnone : s.wines.filter (fun w => w.legacyId == lw) = [])
    (hcache : ∀ p ∈ s.wineCache, ∃ w ∈ s.wines, w.legacyId = p.1) :
    ∃ i s1, ImportScript.getNewWineIdOrCreate s lw = (i, s1) ∧
      (s1.wines.filter (fun w => w.legacyId == lw)).map (fun w => w.id) = [i] ∧
      (∀ w ∈ s1.wines.filter (fun w => w.legacyId == lw),
          strContains w.description (toString lw) = true) ∧
      ∃ s2, ImportScript.getNewWineIdOrCreate s1 lw = (i, s2) ∧
        s2.wines = s1.wines ∧
        ImportScript.getNewWineIdOrCreate s2 lw = (i, s2) := by
  have hwall : ∀ w ∈ s.wines, (w.legacyId == lw) = false := filter_nil_forall _ _ hnone
  have hcfind : s.wineCache.find? (fun p => p.1 == lw) = none := by
    cases hc : s.wineCache.find? (fun p => p.1 == lw) with
    | none => rfl
    | some p =>
      have hp1 : (p.1 == lw) = true := by
        have h := List.find?_some hc
        simpa using h
      have hpm : p ∈ s.wineCache := List.mem_of_find?_eq_some hc
      rcases hcache p hpm with ⟨w, hwm, hwl⟩
      have hfl := hwall w hwm
      rw [hwl] at hfl
      rw [hfl] at hp1
      simp at hp1
  have hwfind : s.wines.find? (fun w => w.legacyId == lw) = none :=
    find?_none_of_forall _ _ hwall
  set w0 : WineRow := ⟨s.nextId, lw, "Legacy Wine - Veritas - " ++ toString lw⟩ with hw0
  set s1 : DbState :=
    { s with wines := s.wines ++ [w0], nextId := s.nextId + 1 } with hs1
  have hr1 : ImportScript.getNewWineIdOrCreate s lw = (s.nextId, s1) := by
    simp only [ImportScript.getNewWineIdOrCreate, getNewWineId, hcfind, hwfind,
      ImportScript.createNewWine]
  have hkey0 : (w0.legacyId == lw) = true := by simp [hw0]
  have hfilter1 : s1.wines.filter (fun w => w.legacyId == lw) = [w0] := by
    simp only [hs1]
    rw [List.filter_append, hnone, List.nil_append]
    simp [List.filter_cons, hkey0]
  refine ⟨s.nextId, s1, hr1, ?_, ?_, ?_⟩
  · rw [hfilter1]; rfl
  · intro w hw
    rw [hfilter1] at hw
    rcases List.mem_singleton.mp hw with rfl
    exact strContains_append_right _ _
  · have hwfind1 : s1.wines.find? (fun w => w.legacyId == lw) = some w0 := by
      simp only [hs1]
      rw [find?_append_of_none _ _ _ hwfind]
      exact List.find?_cons_of_pos _ hkey0
    set s2 : DbState := { s1 with wineCache := (lw, w0.id) :: s1.wineCache } with hs2
    have hr2 : ImportScript.getNewWineIdOrCreate s1 lw = (s.nextId, s2) := by
      have hcfind1 : s1.wineCache.find? (fun p => p.1 == lw) = none := hcfind
      simp only [ImportScript.getNewWineIdOrCreate, getNewWineId, hcfind1, hwfind1]
    have hr3 : ImportScript.getNewWineIdOrCreate s2 lw = (s.nextId, s2) := by
      have hcfind2 : s2.wineCache.find? (fun p => p.1 == lw) = some (lw, w0.id) := by
        simp only [hs2]
        exact List.find?_cons_of_pos _ (by simp)
      simp only [ImportScript.getNewWineIdOrCreate, getNewWineId, hcfind2]
    exact ⟨s2, hr2, rfl, hr3⟩

/-- Witness for `placeholder_wine_created_once` on the empty store and the
unmatched legacy wine id 77. -/
theorem placeholder_wine_created_once_witness :
    (emptyDb.wines.filter (fun w => w.legacyId == 77) = []) ∧
    (∀ p ∈ emptyDb.wineCache, ∃ w ∈ emptyDb.wines, w.legacyId = p.1) ∧
    (∃ i s1, ImportScript.getNewWineIdOrCreate emptyDb 77 = (i, s1) ∧
      (s1.wines.filter (fun w => w.legacyId == 77)).map (fun w => w.id) = [i] ∧
      (∀ w ∈ s1.wines.filter (fun w => w.legacyId == 77),
          strContains w.description (toString 77) = true) ∧
      ∃ s2, ImportScript.getNewWineIdOrCreate s1 77 = (i, s2) ∧
        s2.wines = s1.wines ∧
        ImportScript.getNewWineIdOrCreate s2 77 = (i, s2)) :=
  ⟨by decide, by decide,
   placeholder_wine_created_once emptyDb 77 (by decide) (by decide)⟩

theorem forall_of_find?_none {α : Type} (p : α → Bool) (l : List α)
    (h : l.find? p = none) : ∀ a ∈ l, p a = false := by
  induction l with
  | nil => intro a ha; cases ha
  | cons a t ih =>
    intro x hx
    cases hpa : p a with
    | true => rw [List.find?_cons_of_pos _ hpa] at h; cases h
    | false =>
      rw [List.find?_cons_of_neg _ (by simp [hpa])] at h
      rcases List.mem_cons.mp hx with rfl | hxt
      · exact hpa
      · exact ih h x hxt

@[simp] theorem getNewWineId_operations (s : DbState) (lw : Nat) :
    (getNewWineId s lw).2.operations = s.operations := by
  unfold getNewWineId
  split
  · rfl
  · split <;> rfl

@[simp] theorem getNewWineId_entries (s : DbState) (lw : Nat) :
    (getNewWineId s lw).2.entries = s.entries := by
  unfold getNewWineId
  split
  · rfl
  · split <;> rfl

@[simp] theorem getNewWineId_groups (s : DbState) (lw : Nat) :
    (getNewWineId s lw).2.groups = s.groups := by
  unfold getNewWineId
  split
  · rfl
  · split <;> rfl

@[simp] theorem getNewWineId_nextId (s : DbState) (lw : Nat) :
    (getNewWineId s lw).2.nextId = s.nextId := by
  unfold getNewWineId
  split
  · rfl
  · split <;> rfl

@[simp] theorem createNewWine_M_operations (s : DbState) (lw : Nat) (d : String) :
    (MigrateScript.createNewWine s lw d).2.operations = s.operations := rfl

@[simp] theorem createNewWine_M_entries (s : DbState) (lw : Nat) (d : String) :
    (MigrateScript.createNewWine s lw d).2.entries = s.entries := rfl

@[simp] theorem createNewWine_M_groups (s : DbState) (lw : Nat) (d : String) :
    (MigrateScript.createNewWine s lw d).2.groups = s.groups := rfl

@[simp] theorem createNewWine_M_nextId (s : DbState) (lw : Nat) (d : String) :
    (MigrateScript.createNewWine s lw d).2.nextId = s.nextId + 1 := rfl

@[simp] theorem createNewWine_I_operations (s : DbState) (lw : Nat) (d : String) :
    (ImportScript.createNewWine s lw d).2.operations = s.operations := by
  unfold ImportScript.createNewWine; repeat' split; all_goals simp

@[simp] theorem createNewWine_I_entries (s : DbState) (lw : Nat) (d : String) :
    (ImportScript.createNewWine s lw d).2.entries = s.entries := by
  unfold ImportScript.createNewWine; repeat' split; all_goals simp

@[simp] theorem createNewWine_I_groups (s : DbState) (lw : Nat) (d : String) :
    (ImportScript.createNewWine s lw d).2.groups = s.groups := by
  unfold ImportScript.createNewWine; repeat' split; all_goals simp

theorem createNewWine_I_nextId_ge (s : DbState) (lw : Nat) (d : String) :
    s.nextId ≤ (ImportScript.createNewWine s lw d).2.nextId := by
  unfold ImportScript.createNewWine; repeat' split; all_goals simp

theorem validate_M_operations (env : MigrationEnv) (s : DbState) (d : ActivityDetail) :
    (MigrateScript.validateInventoryActivityDetail env s d).2.operations = s.operations := by
  simp only [MigrateScript.validateInventoryActivityDetail]
  repeat' split
  all_goals simp

theorem validate_M_entries (env : MigrationEnv) (s : DbState) (d : ActivityDetail) :
    (MigrateScript.validateInventoryActivityDetail env s d).2.entries = s.entries := by
  simp only [MigrateScript.validateInventoryActivityDetail]
  repeat' split
  all_goals simp

theorem validate_M_groups (env : MigrationEnv) (s : DbState) (d : ActivityDetail) :
    (MigrateScript.validateInventoryActivityDetail env s d).2.groups = s.groups := by
  simp only [MigrateScript.validateInventoryActivityDetail]
  repeat' split
  all_goals simp

theorem validate_M_nextId_ge (env : MigrationEnv) (s : DbState) (d : ActivityDetail) :
    s.nextId ≤ (MigrateScript.validateInventoryActivityDetail env s d).2.nextId := by
  simp only [MigrateScript.validateInventoryActivityDetail]
  repeat' split
  all_goals simp

@[simp] theorem postEntry_operations (s : DbState) (opId w f v : Nat) (a : Int) :
    (createCaseOperationInventoryEntry s opId w f v a).operations = s.operations := by
  unfold createCaseOperationInventoryEntry; repeat' split; all_goals simp

@[simp] theorem postEntry_groups (s : DbState) (opId w f v : Nat) (a : Int) :
    (createCaseOperationInventoryEntry s opId w f v a).groups = s.groups := by
  unfold createCaseOperationInventoryEntry; repeat' split; all_goals simp

theorem postEntry_nextId_ge (s : DbState) (opId w f v : Nat) (a : Int) :
    s.nextId ≤ (createCaseOperationInventoryEntry s opId w f v a).nextId := by
  unfold createCaseOperationInventoryEntry; repeat' split; all_goals simp

theorem dw_post_ops_M (env : MigrationEnv) (opId : Nat) (d : ActivityDetail) (s1 : DbState) :
    (match MigrateScript.validateInventoryActivityDetail env s1 d with
     | (none, s2) => s2
     | (some (w, f, v), s2) =>
       createCaseOperationInventoryEntry s2 opId w f v d.quantity).operations = s1.operations := by
  rcases hv : MigrateScript.validateInventoryActivityDetail env s1 d with ⟨o, s2⟩
  have hops := validate_M_operations env s1 d
  rw [hv] at hops
  cases o with
  | none => simpa using hops
  | some t =>
    rcases t with ⟨w, f, v⟩
    simpa using hops

theorem opsOfGroup_append (g : Nat) (s : DbState) (l : List CaseOperationRow) :
    opsOfGroup g { s with operations := s.operations ++ l, nextId := s.nextId + 1 } =
      opsOfGroup g s ++ l.filter (fun op => op.groupId == g) := by
  simp [opsOfGroup, List.filter_append]

theorem dw_detail_caseIds_M (env : MigrationEnv) (g : Nat) (act : LegacyActivity) (d : ActivityDetail) (s : DbState) :
    (opsOfGroup g (MigrateScript.createOrUpdateCaseOperationFromActivityDepositOrWithdrawalActivityDetail env g d act s)).map
        (fun op => op.caseId) =
      (match env.caseIdMap d.caseId with
       | some c => insertNew ((opsOfGroup g s).map (fun op => op.caseId)) c
       | none => (opsOfGroup g s).map (fun op => op.caseId)) := by
  unfold MigrateScript.createOrUpdateCaseOperationFromActivityDepositOrWithdrawalActivityDetail
    MigrateScript.getCaseOperationFromActivityDetail MigrateScript.getCaseOperation
  cases hc : env.caseIdMap d.caseId with
  | none => simp
  | some c =>
    simp only []
    cases hfind : s.operations.find? (fun op => op.groupId == g && op.caseId == c) with
    | some op =>
      have hpred : (op.groupId == g && op.caseId == c) = true := by
        have h := List.find?_some hfind
        simpa using h
      have hpq : op.groupId = g ∧ op.caseId = c := by simpa using hpred
      have hm : op ∈ s.operations := List.mem_of_find?_eq_some hfind
      have hmem : c ∈ (opsOfGroup g s).map (fun op => op.caseId) := by
        refine List.mem_map.mpr ⟨op, List.mem_filter.mpr ⟨hm, by simp [hpq.1]⟩, hpq.2⟩
      simp only []
      simp only [opsOfGroup]
      rw [dw_post_ops_M]
      simp only [opsOfGroup] at hmem
      simp [insertNew, hmem]
    | none =>
      unfold MigrateScript.createCaseOperationFromActivityDetail
      rw [hc]
      simp only []
      have hnotmem : c ∉ (opsOfGroup g s).map (fun op => op.caseId) := by
        intro hcmem
        rcases List.mem_map.mp hcmem with ⟨op, hopf, hceq⟩
        rcases List.mem_filter.mp hopf with ⟨hopm, hg⟩
        have hf := forall_of_find?_none _ _ hfind op hopm
        simp [hg, hceq] at hf
      simp only [opsOfGroup]
      rw [dw_post_ops_M]
      simp only [opsOfGroup] at hnotmem
      simp [List.filter_append, List.filter_cons, insertNew, hnotmem]

theorem dw_loop_caseIds_M (env : MigrationEnv) (g : Nat) (act : LegacyActivity) :
    ∀ (ds : List ActivityDetail) (s : DbState),
      (opsOfGroup g (ds.foldl (fun s d =>
          MigrateScript.createOrUpdateCaseOperationFromActivityDepositOrWithdrawalActivityDetail env g d act s) s)).map
        (fun op => op.caseId) =
        ds.foldl (fun acc d =>
          match env.caseIdMap d.caseId with
          | some c => insertNew acc c
          | none => acc) ((opsOfGroup g s).map (fun op => op.caseId)) := by
  intro ds
  induction ds with
  | nil => intro s; rfl
  | cons d t ih =>
    intro s
    rw [List.foldl_cons, List.foldl_cons, ih, dw_detail_caseIds_M]

theorem insertNew_nodup (acc : List Nat) (c : Nat) (h : acc.Nodup) :
    (insertNew acc c).Nodup := by
  unfold insertNew
  split
  · exact h
  · rename_i hnot
    simp [List.nodup_append, h, hnot]

theorem distinctResolved_go_nodup (env : MigrationEnv) :
    ∀ (ds : List ActivityDetail) (acc : List Nat), acc.Nodup →
      (ds.foldl (fun acc d =>
        match env.caseIdMap d.caseId with
        | some c => insertNew acc c
        | none => acc) acc).Nodup := by
  intro ds
  induction ds with
  | nil => intro acc h; exact h
  | cons d t ih =>
    intro acc h
    rw [List.foldl_cons]
    apply ih
    rcases hx : env.caseIdMap d.caseId with _ | c <;> simp only [hx]
    · exact h
    · exact insertNew_nodup acc c h

/-- **C2.** At most one CaseOperation per (group, case) on the
deposit/withdrawal path (`getCaseOperation`, import-case-data.js:785 and
migrate-specific-activity.js:561): starting from a group with no operations,
processing an activity's line items leaves the group with exactly one
operation per distinct resolvable case referenced by its (non-Supply) line
items, in first-occurrence order — so the number of rows equals the number
of distinct resolvable cases, not the number of line items, and the case ids
under the group are pairwise distinct. -/
theorem dw_at_most_one_operation_per_case (env : MigrationEnv) (act : LegacyActivity) (g : Nat) (s : DbState)
    (h0 : opsOfGroup g s = []) :
    ((opsOfGroup g (MigrateScript.createCaseOperationsFromActivityDepositOrWithdrawal env act g s)).map
        (fun op => op.caseId) =
      distinctResolvedCases env (MigrateScript.getActivityDetails env act.activityId)) ∧
    (opsOfGroup g (MigrateScript.createCaseOperationsFromActivityDepositOrWithdrawal env act g s)).length =
      (distinctResolvedCases env (MigrateScript.getActivityDetails env act.activityId)).length ∧
    (distinctResolvedCases env (MigrateScript.getActivityDetails env act.activityId)).Nodup := by
  have hmain : (opsOfGroup g (MigrateScript.createCaseOperationsFromActivityDepositOrWithdrawal env act g s)).map
      (fun op => op.caseId) =
      distinctResolvedCases env (MigrateScript.getActivityDetails env act.activityId) := by
    unfold MigrateScript.createCaseOperationsFromActivityDepositOrWithdrawal distinctResolvedCases
    rw [dw_loop_caseIds_M, h0]
    rfl
  refine ⟨hmain, ?_, ?_⟩
  · have hlen := congrArg List.length hmain
    simpa using hlen
  · unfold distinctResolvedCases
    exact distinctResolved_go_nodup env _ [] List.nodup_nil

/-- Witness for `dw_at_most_one_operation_per_case`: activity 700 with two
lines on legacy case 10, one on case 11 and one Supply line, run against the
empty store under group 5. -/
theorem dw_at_most_one_operation_per_case_witness :
    opsOfGroup 5 emptyDb = [] ∧
    (((opsOfGroup 5 (MigrateScript.createCaseOperationsFromActivityDepositOrWithdrawal c2Env c2Activity 5 emptyDb)).map
        (fun op => op.caseId) =
      distinctResolvedCases c2Env (MigrateScript.getActivityDetails c2Env c2Activity.activityId)) ∧
    (opsOfGroup 5 (MigrateScript.createCaseOperationsFromActivityDepositOrWithdrawal c2Env c2Activity 5 emptyDb)).length =
      (distinctResolvedCases c2Env (MigrateScript.getActivityDetails c2Env c2Activity.activityId)).length ∧
    (distinctResolvedCases c2Env (MigrateScript.getActivityDetails c2Env c2Activity.activityId)).Nodup) :=
  ⟨by decide, dw_at_most_one_operation_per_case c2Env c2Activity 5 emptyDb (by decide)⟩

theorem strContains_parts (pre pat suf : String) :
    strContains (pre ++ pat ++ suf) pat = true := by
  unfold strContains
  have h : (pre ++ pat ++ suf).toList = pre.toList ++ (pat.toList ++ suf.toList) := by
    simp [String.toList, String.data_append]
  rw [h]
  exact hasSub_of_parts _ _ _

/-- **C6 counterexample.** Not every CaseOperation created while reconciling
carries the legacy activity id: the full-import script's
`createCaseOperationFromActivityDetail` (import-case-data.js:618-641) stamps
`logs` with `JSON.stringify([])`, the empty array text, which does not
contain the key `legacy_activity_id` at all (and that script performs no
already-migrated check before re-processing). -/
theorem import_logs_missing_legacy_id_cex :
    ((ImportScript.createCaseOperationFromActivityDetail c4Env 50 c4Detail c4Activity emptyDb).2.operations.map
        (fun op => op.logs)) = ["[]"] ∧
    strContains "[]" "legacy_activity_id" = false ∧
    strContains "[]" ("\"legacy_activity_id\":" ++ toString c4Activity.activityId) = false := by
  refine ⟨by decide, by decide, by decide⟩

/-- **C6 (amended).** In the single-activity migration script every created
CaseOperation's `logs` is the JSON text `[{"legacy_activity_id":<id>}]` —
which contains the substring `"legacy_activity_id":<id>` — and `migrate`
checks `findExistingOperationGroup` before re-processing: whenever that
check finds a case operation whose logs contain the quoted pattern
`"legacy_activity_id":"<id>"` (and `--clear-existing` is not set), the run
is a no-op that creates no new rows.  In the full-import script, by
contrast, `logs` is the empty array text and no such check exists
(see the counterexample). -/
theorem migrate_stamps_and_skips (env : MigrationEnv) (cust : Nat) (act : LegacyActivity)
    (s s' : DbState) (g cid : Nat) (d : ActivityDetail)
    (hfound : (MigrateScript.findExistingOperationGroup s act.activityId).isSome = true) :
    MigrateScript.migrateActivityGuarded env cust act false s = s ∧
    (env.caseIdMap d.caseId = some cid →
      ((MigrateScript.createCaseOperationFromActivityDetail env g d act s').2.operations.map
          (fun op => op.logs)) =
        s'.operations.map (fun op => op.logs) ++ [MigrateScript.migrateStamp act.activityId]) ∧
    ((MigrateScript.createCaseOperationFromActivityTransfer g act cid "withdrawal" s').2.operations.map
        (fun op => op.logs) =
      s'.operations.map (fun op => op.logs) ++ [MigrateScript.migrateStamp act.activityId]) ∧
    strContains (MigrateScript.migrateStamp act.activityId)
      ("\"legacy_activity_id\":" ++ toString act.activityId) = true := by
  refine ⟨?_, ?_, ?_, ?_⟩
  · simp [MigrateScript.migrateActivityGuarded, hfound]
  · intro hcid
    simp [MigrateScript.createCaseOperationFromActivityDetail, hcid]
  · simp [MigrateScript.createCaseOperationFromActivityTransfer]
  · have hlit : ("[\x7b\"legacy_activity_id\":" : String) =
        "[\x7b" ++ "\"legacy_activity_id\":" := by decide
    have hst : MigrateScript.migrateStamp act.activityId =
        "[\x7b" ++ ("\"legacy_activity_id\":" ++ toString act.activityId) ++ "\x7d]" := by
      unfold MigrateScript.migrateStamp
      rw [hlit]
      simp only [String.append_assoc]
    rw [hst]
    exact strContains_parts "[\x7b" ("\"legacy_activity_id\":" ++ toString act.activityId) "\x7d]"

/-- Witness for `migrate_stamps_and_skips`: store `c6State` already holds a
quoted-pattern stamp for activity 300, and the concrete creators stamp the
logs of everything they insert. -/
theorem migrate_stamps_and_skips_witness :
    (MigrateScript.findExistingOperationGroup c6State c6Activity.activityId).isSome = true ∧
    MigrateScript.migrateActivityGuarded c2Env 7 c6Activity false c6State = c6State ∧
    ((MigrateScript.createCaseOperationFromActivityDetail c2Env 5 c6Detail c6Activity emptyDb).2.operations.map
        (fun op => op.logs)) = [MigrateScript.migrateStamp c6Activity.activityId] ∧
    strContains (MigrateScript.migrateStamp c6Activity.activityId)
      ("\"legacy_activity_id\":" ++ toString c6Activity.activityId) = true := by
  refine ⟨by decide, ?_, ?_, ?_⟩
  · exact (migrate_stamps_and_skips c2Env 7 c6Activity c6State emptyDb 5 110 c6Detail
      (by decide)).1
  · have h := (migrate_stamps_and_skips c2Env 7 c6Activity c6State emptyDb 5 110 c6Detail
      (by decide)).2.1 (by decide)
    simpa [emptyDb] using h
  · exact (migrate_stamps_and_skips c2Env 7 c6Activity c6State emptyDb 5 110 c6Detail
      (by decide)).2.2.2

theorem any_false_of_forall {α : Type} (p : α → Bool) (l : List α)
    (h : ∀ a ∈ l, p a = false) : l.any p = false := by
  induction l with
  | nil => rfl
  | cons a t ih =>
    simp [List.any_cons, h a (by simp),
      ih (fun x hx => h x (List.mem_cons_of_mem a hx))]

theorem map_congr_fun {α β : Type} (f g : α → β) (l : List α)
    (h : ∀ a ∈ l, f a = g a) : l.map f = l.map g := by
  induction l with
  | nil => rfl
  | cons a t ih =>
    simp only [List.map_cons, h a (by simp),
      ih (fun x hx => h x (List.mem_cons_of_mem a hx))]

theorem stateWF_iff (s : DbState) :
    stateWF s = true ↔
      ((∀ op ∈ s.operations, op.id < s.nextId) ∧
       (∀ e ∈ s.entries, e.id < s.nextId) ∧
       (∀ e ∈ s.entries, ∀ oid, e.operationId = some oid → oid < s.nextId)) := by
  unfold stateWF
  simp only [Bool.and_eq_true, List.all_eq_true, decide_eq_true_eq]
  constructor
  · rintro ⟨⟨h1, h2⟩, h3⟩
    refine ⟨h1, h2, ?_⟩
    intro e he oid hoid
    have h := h3 e he
    rw [hoid] at h
    simpa [Option.all] using h
  · rintro ⟨h1, h2, h3⟩
    refine ⟨⟨h1, h2⟩, ?_⟩
    intro e he
    cases hop : e.operationId with
    | none => simp [Option.all]
    | some oid => simpa [Option.all] using h3 e he oid hop

theorem stateWF_mono (s t : DbState) (hwf : stateWF s = true)
    (hops : t.operations = s.operations) (hent : t.entries = s.entries)
    (hn : s.nextId ≤ t.nextId) : stateWF t = true := by
  rw [stateWF_iff] at hwf ⊢
  rcases hwf with ⟨h1, h2, h3⟩
  rw [hops, hent]
  exact ⟨fun op hm => lt_of_lt_of_le (h1 op hm) hn,
    fun e hm => lt_of_lt_of_le (h2 e hm) hn,
    fun e hm oid ho => lt_of_lt_of_le (h3 e hm oid ho) hn⟩

theorem opIdBeq_false_of_lt (e : InventoryEntryRow) (n : Nat)
    (h : ∀ oid, e.operationId = some oid → oid < n) :
    (e.operationId == some n) = false := by
  cases ho : e.operationId with
  | none => rfl
  | some oid =>
    have hlt := h oid ho
    have hne : oid ≠ n := Nat.ne_of_lt hlt
    simp [hne]

theorem postEntry_fresh (s : DbState) (opId w f v : Nat) (q : Int)
    (hnew : ∀ e ∈ s.entries, (e.operationId == some opId) = false) :
    createCaseOperationInventoryEntry s opId w f v q =
      { s with
        entries := s.entries ++ [⟨s.nextId, some opId, w, f, v, q, none⟩],
        nextId := s.nextId + 1 } := by
  have hfind : s.entries.find? (fun e =>
      e.operationId == some opId && e.wineId == w &&
      e.bottleFormatId == f && e.bottleVintageId == v) = none := by
    apply find?_none_of_forall
    intro e he
    simp [hnew e he]
  unfold createCaseOperationInventoryEntry
  rw [hfind]

theorem totalOf_entries_append (ops : List CaseOperationRow) (entries : List InventoryEntryRow)
    (e0 : InventoryEntryRow) (g : Nat) (ty : String) :
    totalOf ops (entries ++ [e0]) g ty =
      totalOf ops entries g ty + (if entryHits ops e0 g ty then e0.amount else 0) := by
  simp [totalOf]

theorem entryHits_append_ops (ops : List CaseOperationRow) (row : CaseOperationRow)
    (e : InventoryEntryRow) (g : Nat) (ty : String)
    (hne : (e.operationId == some row.id) = false) :
    entryHits (ops ++ [row]) e g ty = entryHits ops e g ty := by
  simp [entryHits, List.any_append, List.any_cons, hne]

theorem totalOf_ops_append (ops : List CaseOperationRow) (entries : List InventoryEntryRow)
    (row : CaseOperationRow) (g : Nat) (ty : String)
    (hfresh : ∀ e ∈ entries, (e.operationId == some row.id) = false) :
    totalOf (ops ++ [row]) entries g ty = totalOf ops entries g ty := by
  unfold totalOf
  congr 1
  apply map_congr_fun
  intro e he
  rw [entryHits_append_ops ops row e g ty (hfresh e he)]

theorem entryHits_of_mem (ops : List CaseOperationRow) (e : InventoryEntryRow)
    (g : Nat) (ty : String) (op : CaseOperationRow) (hmem : op ∈ ops)
    (hp : (e.operationId == some op.id && op.groupId == g && op.opType == some ty) = true) :
    entryHits ops e g ty = true := by
  unfold entryHits
  exact List.any_eq_true.mpr ⟨op, hmem, hp⟩

theorem totalOf_zero_of_no_group (ops : List CaseOperationRow) (entries : List InventoryEntryRow)
    (g : Nat) (ty : String) (h : ∀ op ∈ ops, (op.groupId == g) = false) :
    totalOf ops entries g ty = 0 := by
  unfold totalOf
  apply List.sum_eq_zero
  intro x hx
  rcases List.mem_map.mp hx with ⟨e, he, rfl⟩
  have hhits : entryHits ops e g ty = false := by
    apply any_false_of_forall
    intro op hop
    simp [h op hop]
  simp [hhits]

theorem validate_M_isSome (env : MigrationEnv) (s : DbState) (d : ActivityDetail) :
    (MigrateScript.validateInventoryActivityDetail env s d).1.isSome =
      MigrateScript.validateOk env d := by
  simp only [MigrateScript.validateInventoryActivityDetail, MigrateScript.validateOk]
  repeat' split
  all_goals simp_all

theorem transferLegs_core_M (g : Nat) (act : LegacyActivity) (src dst w f v : Nat) (q : Int) (s1 : DbState)
    (hwf1 : stateWF s1 = true) :
    stateWF (MigrateScript.transferLegsPosting g act src dst w f v q s1) = true ∧
    typedTotal g "withdrawal" (MigrateScript.transferLegsPosting g act src dst w f v q s1) =
      typedTotal g "withdrawal" s1 + q ∧
    typedTotal g "deposit" (MigrateScript.transferLegsPosting g act src dst w f v q s1) =
      typedTotal g "deposit" s1 + q := by
  rw [stateWF_iff] at hwf1
  rcases hwf1 with ⟨hops1, hent1, heop1⟩
  set W : CaseOperationRow :=
    ⟨s1.nextId, src, some "withdrawal", some (MigrateScript.parseActivityStatus act.status),
     MigrateScript.migrateStamp act.activityId, g⟩ with hW
  set D : CaseOperationRow :=
    ⟨s1.nextId + 2, dst, some "deposit", some (MigrateScript.parseActivityStatus act.status),
     MigrateScript.migrateStamp act.activityId, g⟩ with hD
  set e1 : InventoryEntryRow := ⟨s1.nextId + 1, some s1.nextId, w, f, v, q, none⟩ with he1
  set e2 : InventoryEntryRow := ⟨s1.nextId + 3, some (s1.nextId + 2), w, f, v, q, none⟩ with he2
  have hfresh1 : ∀ e ∈ s1.entries, (e.operationId == some s1.nextId) = false := by
    intro e he
    exact opIdBeq_false_of_lt e s1.nextId (fun oid ho => heop1 e he oid ho)
  have hfresh2 : ∀ e ∈ s1.entries, (e.operationId == some (s1.nextId + 2)) = false := by
    intro e he
    exact opIdBeq_false_of_lt e (s1.nextId + 2)
      (fun oid ho => Nat.lt_of_lt_of_le (heop1 e he oid ho) (by omega))
  set sA : DbState :=
    { s1 with operations := s1.operations ++ [W], nextId := s1.nextId + 1 } with hsA
  have h1 : MigrateScript.createCaseOperationFromActivityTransfer g act src "withdrawal" s1 =
      (s1.nextId, sA) := rfl
  set sB : DbState := { sA with entries := sA.entries ++ [e1], nextId := s1.nextId + 2 } with hsB
  have h2 : createCaseOperationInventoryEntry sA s1.nextId w f v q = sB :=
    postEntry_fresh sA s1.nextId w f v q hfresh1
  set sC : DbState := { sB with operations := sB.operations ++ [D], nextId := s1.nextId + 3 } with hsC
  have h3 : MigrateScript.createCaseOperationFromActivityTransfer g act dst "deposit" sB =
      (s1.nextId + 2, sC) := rfl
  have hfreshC : ∀ e ∈ sC.entries, (e.operationId == some (s1.nextId + 2)) = false := by
    intro e he
    have hm : e ∈ s1.entries ++ [e1] := he
    rcases List.mem_append.mp hm with hold | hnew
    · exact hfresh2 e hold
    · rcases List.mem_singleton.mp hnew with rfl
      simp [he1]
  set sE : DbState := { sC with entries := sC.entries ++ [e2], nextId := s1.nextId + 4 } with hsE
  have h4 : createCaseOperationInventoryEntry sC (s1.nextId + 2) w f v q = sE :=
    postEntry_fresh sC (s1.nextId + 2) w f v q hfreshC
  have hs5 : MigrateScript.transferLegsPosting g act src dst w f v q s1 = sE := by
    unfold MigrateScript.transferLegsPosting
    rw [h1]
    simp only []
    rw [h2, h3]
    simp only []
    rw [h4]
  rw [hs5]
  have hOpsE : sE.operations = (s1.operations ++ [W]) ++ [D] := rfl
  have hEntE : sE.entries = (s1.entries ++ [e1]) ++ [e2] := rfl
  have hwd : (("withdrawal" : String) == "deposit") = false := by decide
  have hdw : (("deposit" : String) == "withdrawal") = false := by decide
  refine ⟨?_, ?_, ?_⟩
  · have hnE : sE.nextId = s1.nextId + 4 := rfl
    rw [stateWF_iff]
    refine ⟨?_, ?_, ?_⟩
    · intro op hm
      rw [hOpsE] at hm
      rcases List.mem_append.mp hm with hm' | hm'
      · rcases List.mem_append.mp hm' with hm'' | hm''
        · have := hops1 op hm''
          rw [hnE]
          omega
        · rcases List.mem_singleton.mp hm'' with rfl
          rw [hnE]
          simp [hW]
      · rcases List.mem_singleton.mp hm' with rfl
        rw [hnE]
        simp [hD]
    · intro e hm
      rw [hEntE] at hm
      rcases List.mem_append.mp hm with hm' | hm'
      · rcases List.mem_append.mp hm' with hm'' | hm''
        · have := hent1 e hm''
          rw [hnE]
          omega
        · rcases List.mem_singleton.mp hm'' with rfl
          rw [hnE]
          simp [he1]
      · rcases List.mem_singleton.mp hm' with rfl
        rw [hnE]
        simp [he2]
    · intro e hm oid ho
      rw [hEntE] at hm
      rcases List.mem_append.mp hm with hm' | hm'
      · rcases List.mem_append.mp hm' with hm'' | hm''
        · have := heop1 e hm'' oid ho
          rw [hnE]
          omega
        · rcases List.mem_singleton.mp hm'' with rfl
          have h5 : s1.nextId = oid := by simpa [he1] using ho
          rw [hnE]
          omega
      · rcases List.mem_singleton.mp hm' with rfl
        have h5 : s1.nextId + 2 = oid := by simpa [he2] using ho
        rw [hnE]
        omega
  · have hT : typedTotal g "withdrawal" sE =
        totalOf ((s1.operations ++ [W]) ++ [D]) ((s1.entries ++ [e1]) ++ [e2]) g "withdrawal" := rfl
    rw [hT, totalOf_entries_append, totalOf_entries_append]
    have hbase : totalOf ((s1.operations ++ [W]) ++ [D]) s1.entries g "withdrawal" =
        totalOf s1.operations s1.entries g "withdrawal" := by
      rw [totalOf_ops_append _ _ _ _ _ (by intro e he; exact hfresh2 e he)]
      rw [totalOf_ops_append _ _ _ _ _ (by intro e he; exact hfresh1 e he)]
    have hhit1 : entryHits ((s1.operations ++ [W]) ++ [D]) e1 g "withdrawal" = true := by
      apply entryHits_of_mem _ _ _ _ W (by simp)
      simp [hW, he1]
    have hhit2 : entryHits ((s1.operations ++ [W]) ++ [D]) e2 g "withdrawal" = false := by
      apply any_false_of_forall
      intro op hop
      rcases List.mem_append.mp hop with hm' | hm'
      · rcases List.mem_append.mp hm' with hm'' | hm''
        · have hlt := hops1 op hm''
          have : (s1.nextId + 2) ≠ op.id := by omega
          simp [he2, this]
        · rcases List.mem_singleton.mp hm'' with rfl
          simp [hW, he2, hwd]
      · rcases List.mem_singleton.mp hm' with rfl
        simp [hD, he2, hdw]
    rw [hbase, hhit1, hhit2]
    simp [he1, typedTotal]
  · have hT : typedTotal g "deposit" sE =
        totalOf ((s1.operations ++ [W]) ++ [D]) ((s1.entries ++ [e1]) ++ [e2]) g "deposit" := rfl
    rw [hT, totalOf_entries_append, totalOf_entries_append]
    have hbase : totalOf ((s1.operations ++ [W]) ++ [D]) s1.entries g "deposit" =
        totalOf s1.operations s1.entries g "deposit" := by
      rw [totalOf_ops_append _ _ _ _ _ (by intro e he; exact hfresh2 e he)]
      rw [totalOf_ops_append _ _ _ _ _ (by intro e he; exact hfresh1 e he)]
    have hhit1 : entryHits ((s1.operations ++ [W]) ++ [D]) e1 g "deposit" = false := by
      apply any_false_of_forall
      intro op hop
      rcases List.mem_append.mp hop with hm' | hm'
      · rcases List.mem_append.mp hm' with hm'' | hm''
        · have hlt := hops1 op hm''
          have : s1.nextId ≠ op.id := by omega
          simp [he1, this]
        · rcases List.mem_singleton.mp hm'' with rfl
          simp [hW, he1, hwd]
      · rcases List.mem_singleton.mp hm' with rfl
        have : s1.nextId ≠ s1.nextId + 2 := by omega
        simp [hD, he1, this]
    have hhit2 : entryHits ((s1.operations ++ [W]) ++ [D]) e2 g "deposit" = true := by
      apply entryHits_of_mem _ _ _ _ D (by simp)
      simp [hD, he2]
    rw [hbase, hhit1, hhit2]
    simp [he2, typedTotal]

theorem transfer_detail_step_M (env : MigrationEnv) (g : Nat) (act : LegacyActivity) (d : ActivityDetail) (s : DbState)
    (hwf : stateWF s = true) :
    stateWF (MigrateScript.createCaseOperationFromActivityTransferActivityDetail env g d act s) = true ∧
    typedTotal g "withdrawal" (MigrateScript.createCaseOperationFromActivityTransferActivityDetail env g d act s) =
      typedTotal g "withdrawal" s +
        (if MigrateScript.transferReconciled env d then d.quantity else 0) ∧
    typedTotal g "deposit" (MigrateScript.createCaseOperationFromActivityTransferActivityDetail env g d act s) =
      typedTotal g "deposit" s +
        (if MigrateScript.transferReconciled env d then d.quantity else 0) := by
  unfold MigrateScript.createCaseOperationFromActivityTransferActivityDetail
  by_cases hcase : (d.activityType == "Case") = true
  · have hty : d.activityType = "Case" := by simpa using hcase
    have hnb : (d.activityType == "Bottle") = false := by simp [hty]
    have hrec : MigrateScript.transferReconciled env d = false := by
      simp [MigrateScript.transferReconciled, hnb]
    rw [if_pos hcase, hrec]
    simp [hwf]
  · rw [if_neg hcase]
    by_cases hnbot : (d.activityType != "Bottle") = true
    · have hnb : (d.activityType == "Bottle") = false := by simpa using hnbot
      have hrec : MigrateScript.transferReconciled env d = false := by
        simp [MigrateScript.transferReconciled, hnb]
      rw [if_pos hnbot, hrec]
      simp [hwf]
    · rw [if_neg hnbot]
      have hb : (d.activityType == "Bottle") = true := by simpa using hnbot
      rcases hsrc : MigrateScript.getCaseIdFromCaseDetail env d.caseDetailId with _ | src
      · have hrec : MigrateScript.transferReconciled env d = false := by
          simp [MigrateScript.transferReconciled, hsrc]
        rw [hrec]
        simp only [hsrc]
        simp [hwf]
      · rcases hdst : env.caseIdMap d.caseId with _ | dst
        · have hrec : MigrateScript.transferReconciled env d = false := by
            simp [MigrateScript.transferReconciled, hdst]
          rw [hrec]
          simp only [hsrc, hdst]
          simp [hwf]
        · rcases hv : MigrateScript.validateInventoryActivityDetail env s d with ⟨o, s1⟩
          have hops1 : s1.operations = s.operations := by
            have h := validate_M_operations env s d
            rw [hv] at h
            simpa using h
          have hent1 : s1.entries = s.entries := by
            have h := validate_M_entries env s d
            rw [hv] at h
            simpa using h
          have hnext1 : s.nextId ≤ s1.nextId := by
            have h := validate_M_nextId_ge env s d
            rw [hv] at h
            simpa using h
          have hwf1 : stateWF s1 = true := stateWF_mono s s1 hwf hops1 hent1 hnext1
          have hTw1 : typedTotal g "withdrawal" s1 = typedTotal g "withdrawal" s := by
            simp only [typedTotal]
            rw [hops1, hent1]
          have hTd1 : typedTotal g "deposit" s1 = typedTotal g "deposit" s := by
            simp only [typedTotal]
            rw [hops1, hent1]
          have hS := validate_M_isSome env s d
          rw [hv] at hS
          cases o with
          | none =>
            have hok : MigrateScript.validateOk env d = false := by simpa using hS.symm
            have hrec : MigrateScript.transferReconciled env d = false := by
              simp [MigrateScript.transferReconciled, hok]
            rw [hrec]
            simp only [hsrc, hdst, hv]
            refine ⟨hwf1, ?_, ?_⟩ <;> simp [hTw1, hTd1]
          | some t =>
            rcases t with ⟨w, f, v⟩
            have hok : MigrateScript.validateOk env d = true := by simpa using hS.symm
            have hrec : MigrateScript.transferReconciled env d = true := by
              simp [MigrateScript.transferReconciled, hb, hsrc, hdst, hok]
            have hcore := transferLegs_core_M g act src dst w f v d.quantity s1 hwf1
            simp only [hsrc, hdst, hv]
            refine ⟨hcore.1, ?_, ?_⟩
            · show typedTotal g "withdrawal"
                  (MigrateScript.transferLegsPosting g act src dst w f v d.quantity s1) =
                typedTotal g "withdrawal" s +
                  (if MigrateScript.transferReconciled env d then d.quantity else 0)
              rw [hrec, hcore.2.1, hTw1]
              simp
            · show typedTotal g "deposit"
                  (MigrateScript.transferLegsPosting g act src dst w f v d.quantity s1) =
                typedTotal g "deposit" s +
                  (if MigrateScript.transferReconciled env d then d.quantity else 0)
              rw [hrec, hcore.2.2, hTd1]
              simp

theorem transfer_loop_M (env : MigrationEnv) (g : Nat) (act : LegacyActivity) :
    ∀ (ds : List ActivityDetail) (s : DbState), stateWF s = true →
      stateWF (ds.foldl (fun s d =>
        MigrateScript.createCaseOperationFromActivityTransferActivityDetail env g d act s) s) = true ∧
      typedTotal g "withdrawal" (ds.foldl (fun s d =>
          MigrateScript.createCaseOperationFromActivityTransferActivityDetail env g d act s) s) =
        typedTotal g "withdrawal" s + MigrateScript.reconciledQty env ds ∧
      typedTotal g "deposit" (ds.foldl (fun s d =>
          MigrateScript.createCaseOperationFromActivityTransferActivityDetail env g d act s) s) =
        typedTotal g "deposit" s + MigrateScript.reconciledQty env ds := by
  intro ds
  induction ds with
  | nil =>
    intro s h
    refine ⟨h, ?_, ?_⟩ <;> simp [MigrateScript.reconciledQty]
  | cons d t ih =>
    intro s h
    rcases transfer_detail_step_M env g act d s h with ⟨hwf', hw', hd'⟩
    rcases ih _ hwf' with ⟨hwf'', hw'', hd''⟩
    have hQ : MigrateScript.reconciledQty env (d :: t) =
        (if MigrateScript.transferReconciled env d then d.quantity else 0) +
          MigrateScript.reconciledQty env t := by
      simp [MigrateScript.reconciledQty]
    refine ⟨hwf'', ?_, ?_⟩
    · rw [List.foldl_cons, hw'', hw', hQ]
      ring
    · rw [List.foldl_cons, hd'', hd', hQ]
      ring

/-- **C1.** Conservation law for transfers
(`createCaseOperationFromActivityTransferActivityDetail`
at import-case-data.js:711 and migrate-specific-activity.js:466): reconciling a
transfer activity against a store whose group `g` has no operations posts,
for each reconciled "Bottle" line, the identical quantity to the fresh
withdrawal operation on the source case and to the fresh deposit operation
on the destination case — so the total amount on the group's withdrawal
operations equals the total on its deposit operations, equal to the sum of
the reconciled lines' quantities. -/
theorem transfer_conservation (env : MigrationEnv) (act : LegacyActivity) (g : Nat) (s : DbState)
    (hwf : stateWF s = true) (h0 : opsOfGroup g s = []) :
    typedTotal g "withdrawal" (MigrateScript.createCaseOperationsFromActivityTransfer env act g s) =
      MigrateScript.reconciledQty env (MigrateScript.getActivityDetails env act.activityId) ∧
    typedTotal g "deposit" (MigrateScript.createCaseOperationsFromActivityTransfer env act g s) =
      MigrateScript.reconciledQty env (MigrateScript.getActivityDetails env act.activityId) := by
  simp only [opsOfGroup] at h0
  have hgz : ∀ op ∈ s.operations, (op.groupId == g) = false := filter_nil_forall _ _ h0
  have hz : ∀ ty, typedTotal g ty s = 0 := by
    intro ty
    simp only [typedTotal]
    exact totalOf_zero_of_no_group _ _ _ _ hgz
  rcases transfer_loop_M env g act (MigrateScript.getActivityDetails env act.activityId) s hwf with
    ⟨_, hw, hd⟩
  unfold MigrateScript.createCaseOperationsFromActivityTransfer
  constructor
  · rw [hw, hz]
    ring
  · rw [hd, hz]
    ring

/-- Witness for `transfer_conservation`: transfer activity 800 against the
empty store; only the resolvable bottle line (quantity 4) is reconciled. -/
theorem transfer_conservation_witness :
    stateWF emptyDb = true ∧
    opsOfGroup 5 emptyDb = [] ∧
    (typedTotal 5 "withdrawal"
        (MigrateScript.createCaseOperationsFromActivityTransfer c1Env c1Activity 5 emptyDb) =
      MigrateScript.reconciledQty c1Env (MigrateScript.getActivityDetails c1Env c1Activity.activityId) ∧
    typedTotal 5 "deposit"
        (MigrateScript.createCaseOperationsFromActivityTransfer c1Env c1Activity 5 emptyDb) =
      MigrateScript.reconciledQty c1Env (MigrateScript.getActivityDetails c1Env c1Activity.activityId)) :=
  ⟨by decide, by decide,
   transfer_conservation c1Env c1Activity 5 emptyDb (by decide) (by decide)⟩

theorem validate_I_operations (env : MigrationEnv) (s : DbState) (d : ActivityDetail) :
    (ImportScript.validateInventoryActivityDetail env s d).2.operations = s.operations := by
  simp only [ImportScript.validateInventoryActivityDetail]
  repeat' split
  all_goals simp

theorem validate_I_entries (env : MigrationEnv) (s : DbState) (d : ActivityDetail) :
    (ImportScript.validateInventoryActivityDetail env s d).2.entries = s.entries := by
  simp only [ImportScript.validateInventoryActivityDetail]
  repeat' split
  all_goals simp

theorem createNewWine_I_after_lookup_nextId_ge (s : DbState) (lw lw2 : Nat) (d : String) :
    s.nextId ≤ (ImportScript.createNewWine (getNewWineId s lw).2 lw2 d).2.nextId := by
  have h1 := getNewWineId_nextId s lw
  have h2 := createNewWine_I_nextId_ge (getNewWineId s lw).2 lw2 d
  omega

theorem validate_I_nextId_ge (env : MigrationEnv) (s : DbState) (d : ActivityDetail) :
    s.nextId ≤ (ImportScript.validateInventoryActivityDetail env s d).2.nextId := by
  simp only [ImportScript.validateInventoryActivityDetail]
  repeat' split
  all_goals try simp
  all_goals apply createNewWine_I_after_lookup_nextId_ge

theorem validate_I_isSome (env : MigrationEnv) (s : DbState) (d : ActivityDetail) :
    (ImportScript.validateInventoryActivityDetail env s d).1.isSome =
      ImportScript.validateOk env d := by
  simp only [ImportScript.validateInventoryActivityDetail, ImportScript.validateOk]
  repeat' split
  all_goals simp_all

theorem transferLegs_core_I (g : Nat) (act : LegacyActivity) (src dst w f v : Nat) (q : Int) (s1 : DbState)
    (hwf1 : stateWF s1 = true) :
    ImportScript.transferLegsPosting g act src dst w f v q s1 =
      { s1 with
        operations := (s1.operations ++
            [⟨s1.nextId, src, some "withdrawal", ImportScript.parseActivityStatus act.status, "[]", g⟩]) ++
          [⟨s1.nextId + 2, dst, some "deposit", ImportScript.parseActivityStatus act.status, "[]", g⟩],
        entries := (s1.entries ++ [⟨s1.nextId + 1, some s1.nextId, w, f, v, q, none⟩]) ++
          [⟨s1.nextId + 3, some (s1.nextId + 2), w, f, v, q, none⟩],
        nextId := s1.nextId + 4 } ∧
    stateWF (ImportScript.transferLegsPosting g act src dst w f v q s1) = true := by
  rw [stateWF_iff] at hwf1
  rcases hwf1 with ⟨hops1, hent1, heop1⟩
  set W : CaseOperationRow :=
    ⟨s1.nextId, src, some "withdrawal", ImportScript.parseActivityStatus act.status, "[]", g⟩ with hW
  set D : CaseOperationRow :=
    ⟨s1.nextId + 2, dst, some "deposit", ImportScript.parseActivityStatus act.status, "[]", g⟩ with hD
  set e1 : InventoryEntryRow := ⟨s1.nextId + 1, some s1.nextId, w, f, v, q, none⟩ with he1
  set e2 : InventoryEntryRow := ⟨s1.nextId + 3, some (s1.nextId + 2), w, f, v, q, none⟩ with he2
  have hfresh1 : ∀ e ∈ s1.entries, (e.operationId == some s1.nextId) = false := by
    intro e he
    exact opIdBeq_false_of_lt e s1.nextId (fun oid ho => heop1 e he oid ho)
  have hfresh2 : ∀ e ∈ s1.entries, (e.operationId == some (s1.nextId + 2)) = false := by
    intro e he
    exact opIdBeq_false_of_lt e (s1.nextId + 2)
      (fun oid ho => Nat.lt_of_lt_of_le (heop1 e he oid ho) (by omega))
  set sA : DbState :=
    { s1 with operations := s1.operations ++ [W], nextId := s1.nextId + 1 } with hsA
  have h1 : ImportScript.createCaseOperationFromActivityTransfer g act src "withdrawal" s1 =
      (s1.nextId, sA) := rfl
  set sB : DbState := { sA with entries := sA.entries ++ [e1], nextId := s1.nextId + 2 } with hsB
  have h2 : createCaseOperationInventoryEntry sA s1.nextId w f v q = sB :=
    postEntry_fresh sA s1.nextId w f v q hfresh1
  set sC : DbState := { sB with operations := sB.operations ++ [D], nextId := s1.nextId + 3 } with hsC
  have h3 : ImportScript.createCaseOperationFromActivityTransfer g act dst "deposit" sB =
      (s1.nextId + 2, sC) := rfl
  have hfreshC : ∀ e ∈ sC.entries, (e.operationId == some (s1.nextId + 2)) = false := by
    intro e he
    have hm : e ∈ s1.entries ++ [e1] := he
    rcases List.mem_append.mp hm with hold | hnew
    · exact hfresh2 e hold
    · rcases List.mem_singleton.mp hnew with rfl
      simp [he1]
  set sE : DbState := { sC with entries := sC.entries ++ [e2], nextId := s1.nextId + 4 } with hsE
  have h4 : createCaseOperationInventoryEntry sC (s1.nextId + 2) w f v q = sE :=
    postEntry_fresh sC (s1.nextId + 2) w f v q hfreshC
  have hs5 : ImportScript.transferLegsPosting g act src dst w f v q s1 = sE := by
    unfold ImportScript.transferLegsPosting
    rw [h1]
    simp only []
    rw [h2, h3]
    simp only []
    rw [h4]
  refine ⟨hs5, ?_⟩
  rw [hs5]
  have hnE : sE.nextId = s1.nextId + 4 := rfl
  have hOpsE : sE.operations = (s1.operations ++ [W]) ++ [D] := rfl
  have hEntE : sE.entries = (s1.entries ++ [e1]) ++ [e2] := rfl
  rw [stateWF_iff]
  refine ⟨?_, ?_, ?_⟩
  · intro op hm
    rw [hOpsE] at hm
    rcases List.mem_append.mp hm with hm' | hm'
    · rcases List.mem_append.mp hm' with hm'' | hm''
      · have := hops1 op hm''
        rw [hnE]
        omega
      · rcases List.mem_singleton.mp hm'' with rfl
        rw [hnE]
        simp [hW]
    · rcases List.mem_singleton.mp hm' with rfl
      rw [hnE]
      simp [hD]
  · intro e hm
    rw [hEntE] at hm
    rcases List.mem_append.mp hm with hm' | hm'
    · rcases List.mem_append.mp hm' with hm'' | hm''
      · have := hent1 e hm''
        rw [hnE]
        omega
      · rcases List.mem_singleton.mp hm'' with rfl
        rw [hnE]
        simp [he1]
    · rcases List.mem_singleton.mp hm' with rfl
      rw [hnE]
      simp [he2]
  · intro e hm oid ho
    rw [hEntE] at hm
    rcases List.mem_append.mp hm with hm' | hm'
    · rcases List.mem_append.mp hm' with hm'' | hm''
      · have := heop1 e hm'' oid ho
        rw [hnE]
        omega
      · rcases List.mem_singleton.mp hm'' with rfl
        have h5 : s1.nextId = oid := by simpa [he1] using ho
        rw [hnE]
        omega
    · rcases List.mem_singleton.mp hm' with rfl
      have h5 : s1.nextId + 2 = oid := by simpa [he2] using ho
      rw [hnE]
      omega

theorem import_transfer_detail_case (env : MigrationEnv) (g : Nat) (act : LegacyActivity)
    (d : ActivityDetail) (s : DbState) (h : d.activityType = "Case") :
    ImportScript.createCaseOperationFromActivityTransferActivityDetail env g d act s = .ok s := by
  unfold ImportScript.createCaseOperationFromActivityTransferActivityDetail
  rw [if_pos (by simp [h])]

theorem import_transfer_detail_resolved (env : MigrationEnv) (g : Nat) (act : LegacyActivity)
    (d : ActivityDetail) (s : DbState) (hwf : stateWF s = true)
    (hrec : ImportScript.transferReconciled env d = true) :
    ∃ src dst wOp dOp s',
      ImportScript.getCaseIdFromCaseDetail env d.caseDetailId = some src ∧
      env.caseIdMap d.caseId = some dst ∧
      ImportScript.createCaseOperationFromActivityTransferActivityDetail env g d act s = .ok s' ∧
      stateWF s' = true ∧
      s'.operations = s.operations ++ [wOp, dOp] ∧
      wOp.caseId = src ∧ wOp.opType = some "withdrawal" ∧ wOp.groupId = g ∧
      dOp.caseId = dst ∧ dOp.opType = some "deposit" ∧ dOp.groupId = g ∧
      wOp.id ∉ s.operations.map (fun op => op.id) ∧
      dOp.id ∉ s.operations.map (fun op => op.id) ∧
      wOp.id ≠ dOp.id := by
  have hrec' := hrec
  simp only [ImportScript.transferReconciled, Bool.and_eq_true, beq_iff_eq,
    Option.isSome_iff_exists] at hrec'
  rcases hrec' with ⟨⟨⟨hty, ⟨src, hsrc⟩⟩, ⟨dst, hdst⟩⟩, hok⟩
  have hncase : ¬((d.activityType == "Case") = true) := by simp [hty]
  have hnbot : ¬((d.activityType != "Bottle") = true) := by simp [hty]
  rcases hv : ImportScript.validateInventoryActivityDetail env s d with ⟨o, sV⟩
  have hsome : o.isSome = true := by
    have h := validate_I_isSome env s d
    rw [hv] at h
    simpa [hok] using h
  rcases Option.isSome_iff_exists.mp hsome with ⟨t, rfl⟩
  rcases t with ⟨w, f, v⟩
  have hopsV : sV.operations = s.operations := by
    have h := validate_I_operations env s d
    rw [hv] at h
    simpa using h
  have hentV : sV.entries = s.entries := by
    have h := validate_I_entries env s d
    rw [hv] at h
    simpa using h
  have hnV : s.nextId ≤ sV.nextId := by
    have h := validate_I_nextId_ge env s d
    rw [hv] at h
    simpa using h
  have hwfV : stateWF sV = true := stateWF_mono s sV hwf hopsV hentV hnV
  rcases transferLegs_core_I g act src dst w f v d.quantity sV hwfV with ⟨hshape, hwf5⟩
  set W : CaseOperationRow :=
    ⟨sV.nextId, src, some "withdrawal", ImportScript.parseActivityStatus act.status, "[]", g⟩ with hW
  set D : CaseOperationRow :=
    ⟨sV.nextId + 2, dst, some "deposit", ImportScript.parseActivityStatus act.status, "[]", g⟩ with hD
  refine ⟨src, dst, W, D, ImportScript.transferLegsPosting g act src dst w f v d.quantity sV,
    hsrc, hdst, ?_, hwf5, ?_, rfl, rfl, rfl, rfl, rfl, rfl, ?_, ?_, ?_⟩
  · unfold ImportScript.createCaseOperationFromActivityTransferActivityDetail
    rw [if_neg hncase, if_neg hnbot]
    simp only [hsrc, hdst, hv]
    rfl
  · rw [hshape]
    simp [hopsV]
  · intro hmem
    rcases List.mem_map.mp hmem with ⟨op, hopm, hid⟩
    have hlt := (stateWF_iff s).mp hwf |>.1 op hopm
    have : W.id = sV.nextId := rfl
    omega
  · intro hmem
    rcases List.mem_map.mp hmem with ⟨op, hopm, hid⟩
    have hlt := (stateWF_iff s).mp hwf |>.1 op hopm
    have : D.id = sV.nextId + 2 := rfl
    omega
  · have h1 : W.id = sV.nextId := rfl
    have h2 : D.id = sV.nextId + 2 := rfl
    omega

theorem import_transfer_loop (env : MigrationEnv) (g : Nat) (act : LegacyActivity) :
    ∀ (ds : List ActivityDetail) (s : DbState), stateWF s = true →
      (∀ d ∈ ds, d.activityType = "Case" ∨ ImportScript.transferReconciled env d = true) →
      ∃ s', ds.foldlM (fun s d =>
          ImportScript.createCaseOperationFromActivityTransferActivityDetail env g d act s) s = .ok s' ∧
        stateWF s' = true ∧
        (opsOfGroup g s').length =
          (opsOfGroup g s).length +
            2 * (ds.filter (fun d => ImportScript.transferReconciled env d)).length := by
  intro ds
  induction ds with
  | nil =>
    intro s h _
    exact ⟨s, rfl, h, by simp⟩
  | cons d t ih =>
    intro s h hall
    have hfoldcons : (d :: t).foldlM (fun s d =>
        ImportScript.createCaseOperationFromActivityTransferActivityDetail env g d act s) s =
        (ImportScript.createCaseOperationFromActivityTransferActivityDetail env g d act s) >>=
          (fun s1 => t.foldlM (fun s d =>
            ImportScript.createCaseOperationFromActivityTransferActivityDetail env g d act s) s1) := by
      simp [List.foldlM_cons]
    rcases hall d (by simp) with hcase | hrec
    · have hstep := import_transfer_detail_case env g act d s hcase
      rcases ih s h (fun x hx => hall x (List.mem_cons_of_mem d hx)) with ⟨s', hfold, hwf', hlen⟩
      refine ⟨s', ?_, hwf', ?_⟩
      · rw [hfoldcons, hstep]
        simpa using hfold
      · have hnb : (d.activityType == "Bottle") = false := by simp [hcase]
        have hnrec : ImportScript.transferReconciled env d = false := by
          simp [ImportScript.transferReconciled, hnb]
        rw [List.filter_cons]
        simp [hnrec, hlen]
    · rcases import_transfer_detail_resolved env g act d s h hrec with
        ⟨src, dst, wOp, dOp, s1, hsrc, hdst, hstep, hwf1, hops, hwc, hwt, hwg, hdc, hdt, hdg,
         hf1, hf2, hne⟩
      rcases ih s1 hwf1 (fun x hx => hall x (List.mem_cons_of_mem d hx)) with ⟨s', hfold, hwf', hlen⟩
      refine ⟨s', ?_, hwf', ?_⟩
      · rw [hfoldcons, hstep]
        simpa using hfold
      · have hgb : (wOp.groupId == g) = true := by simp [hwg]
        have hdb : (dOp.groupId == g) = true := by simp [hdg]
        have hgrp : opsOfGroup g s1 = opsOfGroup g s ++ [wOp, dOp] := by
          simp [opsOfGroup, hops, List.filter_append, List.filter_cons, hgb, hdb]
        rw [List.filter_cons]
        simp only [hrec, if_pos]
        rw [hlen, hgrp]
        simp [List.length_append]
        omega

/-- **C7.** Transfer lines in the full-import script
(`createCaseOperationFromActivityTransferActivityDetail`
at import-case-data.js:711):
(1) every `"Case"`-kind line is a complete no-op (no CaseOperation, no
ledger entry, state returned unchanged);
(2) every fully resolved `"Bottle"`-kind line appends exactly two freshly
created CaseOperations — a withdrawal on the source case and a deposit on
the destination case, with ids not present before and distinct from each
other, i.e. never reusing an existing operation;
(3) hence an activity whose lines are all case-relocations or resolved
bottle lines ends with `2 · N` operations under the group, `N` the number
of resolved bottle lines. -/
theorem transfer_bottle_lines_two_fresh_ops (env : MigrationEnv) (g : Nat) (act : LegacyActivity) :
    (∀ (s : DbState) (d : ActivityDetail), d.activityType = "Case" →
        ImportScript.createCaseOperationFromActivityTransferActivityDetail env g d act s = .ok s) ∧
    (∀ (s : DbState) (d : ActivityDetail), stateWF s = true →
        ImportScript.transferReconciled env d = true →
        ∃ src dst wOp dOp s',
          ImportScript.getCaseIdFromCaseDetail env d.caseDetailId = some src ∧
          env.caseIdMap d.caseId = some dst ∧
          ImportScript.createCaseOperationFromActivityTransferActivityDetail env g d act s = .ok s' ∧
          s'.operations = s.operations ++ [wOp, dOp] ∧
          wOp.caseId = src ∧ wOp.opType = some "withdrawal" ∧ wOp.groupId = g ∧
          dOp.caseId = dst ∧ dOp.opType = some "deposit" ∧ dOp.groupId = g ∧
          wOp.id ∉ s.operations.map (fun op => op.id) ∧
          dOp.id ∉ s.operations.map (fun op => op.id) ∧
          wOp.id ≠ dOp.id) ∧
    (∀ (s : DbState), stateWF s = true →
        (∀ d ∈ ImportScript.getInventoryActivityDetails env act.activityId,
            d.activityType = "Case" ∨ ImportScript.transferReconciled env d = true) →
        ∃ s', ImportScript.createCaseOperationsFromActivityTransfer env act g s = .ok s' ∧
          (opsOfGroup g s').length =
            (opsOfGroup g s).length +
              2 * ((ImportScript.getInventoryActivityDetails env act.activityId).filter
                    (fun d => ImportScript.transferReconciled env d)).length) := by
  refine ⟨fun s d h => import_transfer_detail_case env g act d s h, ?_, ?_⟩
  · intro s d hwf hrec
    rcases import_transfer_detail_resolved env g act d s hwf hrec with
      ⟨src, dst, wOp, dOp, s', hsrc, hdst, hstep, _, hops, h1, h2, h3, h4, h5, h6, h7, h8, h9⟩
    exact ⟨src, dst, wOp, dOp, s', hsrc, hdst, hstep, hops, h1, h2, h3, h4, h5, h6, h7, h8, h9⟩
  · intro s hwf hall
    rcases import_transfer_loop env g act (ImportScript.getInventoryActivityDetails env act.activityId)
      s hwf hall with ⟨s', hfold, _, hlen⟩
    exact ⟨s', hfold, hlen⟩

/-- Witness for `transfer_bottle_lines_two_fresh_ops`: transfer activity 800
with one case-relocation line and one resolvable bottle line (quantity 4),
run against the empty store under group 5. -/
theorem transfer_bottle_lines_two_fresh_ops_witness :
    c7CaseDetail.activityType = "Case" ∧
    (ImportScript.createCaseOperationFromActivityTransferActivityDetail c7Env 5 c7CaseDetail c1Activity emptyDb = .ok emptyDb) ∧
    stateWF emptyDb = true ∧
    ImportScript.transferReconciled c7Env c7BottleDetail = true ∧
    (∃ src dst wOp dOp s',
      ImportScript.getCaseIdFromCaseDetail c7Env c7BottleDetail.caseDetailId = some src ∧
      c7Env.caseIdMap c7BottleDetail.caseId = some dst ∧
      ImportScript.createCaseOperationFromActivityTransferActivityDetail c7Env 5 c7BottleDetail c1Activity emptyDb = .ok s' ∧
      s'.operations = emptyDb.operations ++ [wOp, dOp] ∧
      wOp.caseId = src ∧ wOp.opType = some "withdrawal" ∧ wOp.groupId = 5 ∧
      dOp.caseId = dst ∧ dOp.opType = some "deposit" ∧ dOp.groupId = 5 ∧
      wOp.id ∉ emptyDb.operations.map (fun op => op.id) ∧
      dOp.id ∉ emptyDb.operations.map (fun op => op.id) ∧
      wOp.id ≠ dOp.id) ∧
    (∀ d ∈ ImportScript.getInventoryActivityDetails c7Env c1Activity.activityId,
        d.activityType = "Case" ∨ ImportScript.transferReconciled c7Env d = true) ∧
    (∃ s', ImportScript.createCaseOperationsFromActivityTransfer c7Env c1Activity 5 emptyDb = .ok s' ∧
      (opsOfGroup 5 s').length =
        (opsOfGroup 5 emptyDb).length +
          2 * ((ImportScript.getInventoryActivityDetails c7Env c1Activity.activityId).filter
                (fun d => ImportScript.transferReconciled c7Env d)).length) :=
  ⟨by decide,
   (transfer_bottle_lines_two_fresh_ops c7Env 5 c1Activity).1 emptyDb c7CaseDetail (by decide),
   by decide, by decide,
   (transfer_bottle_lines_two_fresh_ops c7Env 5 c1Activity).2.1 emptyDb c7BottleDetail
     (by decide) (by decide),
   by decide,
   (transfer_bottle_lines_two_fresh_ops c7Env 5 c1Activity).2.2 emptyDb (by decide) (by decide)⟩
